import Mathlib

/-!
Verification development for the ImageJ ROI binary codec in
`imagej_tiff_meta/wrapper.py`.

The codec converts between an in-memory representation of a region of
interest (a point list plus frame/name metadata) and a fixed-layout
big-endian byte encoding, and packs several encoded records into one
metadata block.  Bytes are modelled as natural numbers below 256 in a
`List Nat`; numpy's fixed-width signed/unsigned fields are modelled by
explicit wrap-around (`% 2^w`) plus two's-complement reinterpretation.
Fallible decoding is modelled with `Except`.
-/

set_option maxHeartbeats 1000000
set_option maxRecDepth 100000

/-! ## Byte-level primitives -/

/-- Reinterpret an unsigned 8-bit value as a two's-complement signed value. -/
def toSigned8 (u : Nat) : Int :=
  if u < 128 then (u : Int) else (u : Int) - 256

/-- Reinterpret an unsigned 16-bit value as a two's-complement signed value. -/
def toSigned16 (u : Nat) : Int :=
  if u < 32768 then (u : Int) else (u : Int) - 65536

/-- Reinterpret an unsigned 32-bit value as a two's-complement signed value. -/
def toSigned32 (u : Nat) : Int :=
  if u < 2147483648 then (u : Int) else (u : Int) - 4294967296

/-- The value stored in a numpy `i1` field after assigning `v`. -/
def wrap8 (v : Int) : Int := toSigned8 ((v % 256).toNat)

/-- The value stored in a numpy `i2` field after assigning `v`. -/
def wrap16 (v : Int) : Int := toSigned16 ((v % 65536).toNat)

/-- The value stored in a numpy `i4` field after assigning `v`. -/
def wrap32 (v : Int) : Int := toSigned32 ((v % 4294967296).toNat)

/-- Big-endian bytes of an unsigned 16-bit value. -/
def encU16be (u : Nat) : List Nat := [u / 256 % 256, u % 256]

/-- Big-endian bytes of an unsigned 32-bit value. -/
def encU32be (u : Nat) : List Nat :=
  [u / 16777216 % 256, u / 65536 % 256, u / 256 % 256, u % 256]

/-- Big-endian bytes of a signed 8-bit field holding `v`. -/
def encI8be (v : Int) : List Nat := [(v % 256).toNat]

/-- Big-endian bytes of a signed 16-bit field holding `v`. -/
def encI16be (v : Int) : List Nat := encU16be ((v % 65536).toNat)

/-- Big-endian bytes of a signed 32-bit field holding `v`. -/
def encI32be (v : Int) : List Nat := encU32be ((v % 4294967296).toNat)

/-- Sequentially read one unsigned byte. -/
def rdU8 : List Nat → Option (Nat × List Nat)
  | b :: r => some (b, r)
  | [] => none

/-- Sequentially read one signed byte. -/
def rdI8 : List Nat → Option (Int × List Nat)
  | b :: r => some (toSigned8 b, r)
  | [] => none

/-- Sequentially read a big-endian signed 16-bit value. -/
def rdI16 : List Nat → Option (Int × List Nat)
  | b0 :: b1 :: r => some (toSigned16 (b0 * 256 + b1), r)
  | _ => none

/-- Sequentially read a big-endian signed 32-bit value. -/
def rdI32 : List Nat → Option (Int × List Nat)
  | b0 :: b1 :: b2 :: b3 :: r =>
      some (toSigned32 (((b0 * 256 + b1) * 256 + b2) * 256 + b3), r)
  | _ => none

/-- Sequentially read a big-endian unsigned 32-bit value (raw bit pattern). -/
def rdU32 : List Nat → Option (Nat × List Nat)
  | b0 :: b1 :: b2 :: b3 :: r =>
      some (((b0 * 256 + b1) * 256 + b2) * 256 + b3, r)
  | _ => none

/-- Group a byte list into big-endian 16-bit values (pairs of bytes). -/
def toPairs : List Nat → List Nat
  | b0 :: b1 :: rest => (b0 * 256 + b1) :: toPairs rest
  | _ => []

/-- Decode a byte list as consecutive big-endian signed 16-bit values. -/
def toI16s : List Nat → List Int
  | b0 :: b1 :: rest => toSigned16 (b0 * 256 + b1) :: toI16s rest
  | _ => []

/-- Serialize a list of values as consecutive big-endian signed 16-bit fields
(one column of the numpy Fortran-order coordinate array). -/
def encCol (vs : List Int) : List Nat := List.flatten (vs.map encI16be)

/-- Python slice `data[start:stop]` (step 1) with negative-index normalization. -/
def pySlice (data : List Nat) (start stop : Int) : List Nat :=
  let n : Int := data.length
  let a : Nat := (if start < 0 then max 0 (n + start) else min start n).toNat
  let b : Nat := (if stop < 0 then max 0 (n + stop) else min stop n).toNat
  (data.take b).drop a

/-! ## Protocol constants and field layouts (from `wrapper.py`) -/

def CONSTANT_MAGIC_NUMBER : Int := 0x494a494a

def CONSTANT_ROI : Int := 0x726f6920

def CONSTANT_OVERLAY : Int := 0x6f766572

def CONST_IJ_POLYGON : Int := 0

def CONST_IJ_RECT : Int := 1

def CONST_IJ_OVAL : Int := 2

def CONST_IJ_LINE : Int := 3

def CONST_IJ_FREELINE : Int := 4

def CONST_IJ_POLYLINE : Int := 5

def CONST_IJ_NOROI : Int := 6

def CONST_IJ_FREEHAND : Int := 7

def CONST_IJ_TRACED : Int := 8

def CONST_IJ_ANGLE : Int := 9

def CONST_IJ_POINT : Int := 10

def IJM_ROI_VERSION : Int := 226

/-- The declared primary ROI header layout: field names with byte sizes,
in wire order (numpy dtype list `IMAGEJ_ROI_HEADER`, packed, big-endian). -/
def IMAGEJ_ROI_HEADER : List (String × Nat) :=
  [("_iout", 4), ("version", 2), ("roi_type", 1), ("_pad_byte", 1),
   ("top", 2), ("left", 2), ("bottom", 2), ("right", 2),
   ("n_coordinates", 2), ("x1", 4), ("y1", 4), ("x2", 4), ("y2", 4),
   ("stroke_width", 2), ("shape_roi_size", 4), ("stroke_color", 4),
   ("fill_color", 4), ("subtype", 2), ("options", 2),
   ("arrow_style_or_aspect_ratio", 1), ("arrow_head_size", 1),
   ("rounded_rect_arc_size", 2), ("position", 4), ("header2_offset", 4)]

/-- The declared secondary ROI header layout (`IMAGEJ_ROI_HEADER2`). -/
def IMAGEJ_ROI_HEADER2 : List (String × Nat) :=
  [("_nil", 4), ("c", 4), ("z", 4), ("t", 4), ("name_offset", 4),
   ("name_length", 4), ("overlay_label_color", 4), ("overlay_font_size", 2),
   ("available_byte1", 1), ("image_opacity", 1), ("image_size", 4),
   ("float_stroke_width", 4), ("roi_props_offset", 4),
   ("roi_props_length", 4), ("counters_offset", 4)]

/-- The metadata block header layout (`IMAGEJ_META_HEADER`). -/
def IMAGEJ_META_HEADER : List (String × Nat) :=
  [("magic", 4), ("type", 4), ("count", 4)]

/-- The serialized size of a packed layout: the sum of its field sizes. -/
def layout_itemsize (l : List (String × Nat)) : Nat := (l.map Prod.snd).sum

/-- The roi types whose records carry a coordinate array
(`IMAGEJ_SUPPORTED_OVERLAYS`). -/
def IMAGEJ_SUPPORTED_OVERLAYS : List Int :=
  [CONST_IJ_POLYGON, CONST_IJ_FREEHAND, CONST_IJ_TRACED, CONST_IJ_POLYLINE,
   CONST_IJ_FREELINE, CONST_IJ_ANGLE, CONST_IJ_POINT]

/-- All 11 known roi type ordinals (the `CONST_IJ_*` enumeration). -/
def KNOWN_ROI_TYPES : List Int :=
  [CONST_IJ_POLYGON, CONST_IJ_RECT, CONST_IJ_OVAL, CONST_IJ_LINE,
   CONST_IJ_FREELINE, CONST_IJ_POLYLINE, CONST_IJ_NOROI, CONST_IJ_FREEHAND,
   CONST_IJ_TRACED, CONST_IJ_ANGLE, CONST_IJ_POINT]

/-! ## Record structures -/

/-- Decoded primary ROI header record (all 24 fields of
`IMAGEJ_ROI_HEADER`; the 4 tag bytes are kept as individual bytes). -/
structure RoiHeader where
  iout0 : Nat
  iout1 : Nat
  iout2 : Nat
  iout3 : Nat
  version : Int
  roi_type : Int
  pad_byte : Nat
  top : Int
  left : Int
  bottom : Int
  right : Int
  n_coordinates : Int
  x1 : Int
  y1 : Int
  x2 : Int
  y2 : Int
  stroke_width : Int
  shape_roi_size : Int
  stroke_color : Int
  fill_color : Int
  subtype : Int
  options : Int
  arrow_style : Int
  arrow_head_size : Int
  rounded_rect_arc_size : Int
  position : Int
  header2_offset : Int
deriving DecidableEq

/-- Decoded secondary ROI header record (all 15 fields of
`IMAGEJ_ROI_HEADER2`; the `f4` stroke width is carried as its raw
big-endian 32-bit pattern). -/
structure RoiHeader2 where
  nil_field : Int
  c : Int
  z : Int
  t : Int
  name_offset : Int
  name_length : Int
  overlay_label_color : Int
  overlay_font_size : Int
  available_byte1 : Int
  image_opacity : Int
  image_size : Int
  float_stroke_width_bits : Nat
  roi_props_offset : Int
  roi_props_length : Int
  counters_offset : Int
deriving DecidableEq

/-- Metadata block header record (fields of `IMAGEJ_META_HEADER`). -/
structure MetaHeader where
  magic : Int
  type : Int
  count : Int
deriving DecidableEq

/-- Serialize a primary header record: every field in wire order,
big-endian, with numpy storage wrap-around on each field. -/
def RoiHeader.tobytes (h : RoiHeader) : List Nat :=
  [h.iout0 % 256] ++ ([h.iout1 % 256] ++ ([h.iout2 % 256] ++ ([h.iout3 % 256] ++
  (encI16be h.version ++ (encI8be h.roi_type ++ ([h.pad_byte % 256] ++
  (encI16be h.top ++ (encI16be h.left ++ (encI16be h.bottom ++
  (encI16be h.right ++ (encI16be h.n_coordinates ++ (encI32be h.x1 ++
  (encI32be h.y1 ++ (encI32be h.x2 ++ (encI32be h.y2 ++
  (encI16be h.stroke_width ++ (encI32be h.shape_roi_size ++
  (encI32be h.stroke_color ++ (encI32be h.fill_color ++
  (encI16be h.subtype ++ (encI16be h.options ++ (encI8be h.arrow_style ++
  (encI8be h.arrow_head_size ++ (encI16be h.rounded_rect_arc_size ++
  (encI32be h.position ++ encI32be h.header2_offset)))))))))))))))))))))))))

/-- Serialize a secondary header record in wire order, big-endian. -/
def RoiHeader2.tobytes (h : RoiHeader2) : List Nat :=
  encI32be h.nil_field ++ (encI32be h.c ++ (encI32be h.z ++ (encI32be h.t ++
  (encI32be h.name_offset ++ (encI32be h.name_length ++
  (encI32be h.overlay_label_color ++ (encI16be h.overlay_font_size ++
  (encI8be h.available_byte1 ++ (encI8be h.image_opacity ++
  (encI32be h.image_size ++ (encU32be h.float_stroke_width_bits ++
  (encI32be h.roi_props_offset ++ (encI32be h.roi_props_length ++
  encI32be h.counters_offset)))))))))))))

/-- Serialize a metadata block header in wire order, big-endian. -/
def MetaHeader.tobytes (m : MetaHeader) : List Nat :=
  encI32be m.magic ++ (encI32be m.type ++ encI32be m.count)

/-- The value of a primary header record as reinterpreted through its
byte storage (what reading every field back from the buffer yields). -/
def canonRoiHeader (h : RoiHeader) : RoiHeader :=
  { iout0 := h.iout0 % 256, iout1 := h.iout1 % 256, iout2 := h.iout2 % 256,
    iout3 := h.iout3 % 256, version := wrap16 h.version,
    roi_type := wrap8 h.roi_type, pad_byte := h.pad_byte % 256,
    top := wrap16 h.top, left := wrap16 h.left, bottom := wrap16 h.bottom,
    right := wrap16 h.right, n_coordinates := wrap16 h.n_coordinates,
    x1 := wrap32 h.x1, y1 := wrap32 h.y1, x2 := wrap32 h.x2, y2 := wrap32 h.y2,
    stroke_width := wrap16 h.stroke_width,
    shape_roi_size := wrap32 h.shape_roi_size,
    stroke_color := wrap32 h.stroke_color, fill_color := wrap32 h.fill_color,
    subtype := wrap16 h.subtype, options := wrap16 h.options,
    arrow_style := wrap8 h.arrow_style,
    arrow_head_size := wrap8 h.arrow_head_size,
    rounded_rect_arc_size := wrap16 h.rounded_rect_arc_size,
    position := wrap32 h.position, header2_offset := wrap32 h.header2_offset }

/-- The value of a secondary header record as reinterpreted through its
byte storage. -/
def canonRoiHeader2 (h : RoiHeader2) : RoiHeader2 :=
  { nil_field := wrap32 h.nil_field, c := wrap32 h.c, z := wrap32 h.z,
    t := wrap32 h.t, name_offset := wrap32 h.name_offset,
    name_length := wrap32 h.name_length,
    overlay_label_color := wrap32 h.overlay_label_color,
    overlay_font_size := wrap16 h.overlay_font_size,
    available_byte1 := wrap8 h.available_byte1,
    image_opacity := wrap8 h.image_opacity, image_size := wrap32 h.image_size,
    float_stroke_width_bits := h.float_stroke_width_bits % 4294967296,
    roi_props_offset := wrap32 h.roi_props_offset,
    roi_props_length := wrap32 h.roi_props_length,
    counters_offset := wrap32 h.counters_offset }

/-! ## Fixed-layout decoding -/

/-- Decode errors: numpy raises on a too-small buffer, on a negative
record offset, and on a negative array shape; `str(..., 'utf-16be')`
raises on an undecodable name. -/
inductive DecodeError where
  | bufferTooShort
  | offsetOutOfRange
  | badName
  | badShape
deriving DecidableEq

/-- Read all fields of the primary header layout from the start of `w`:
64 bytes consumed in wire order, big-endian. -/
def readRoiHeader (w : List Nat) : Option RoiHeader :=
  match w with
  | b0 :: b1 :: b2 :: b3 :: b4 :: b5 :: b6 :: b7 :: b8 :: b9 :: b10 :: b11 ::
    b12 :: b13 :: b14 :: b15 :: b16 :: b17 :: b18 :: b19 :: b20 :: b21 ::
    b22 :: b23 :: b24 :: b25 :: b26 :: b27 :: b28 :: b29 :: b30 :: b31 ::
    b32 :: b33 :: b34 :: b35 :: b36 :: b37 :: b38 :: b39 :: b40 :: b41 ::
    b42 :: b43 :: b44 :: b45 :: b46 :: b47 :: b48 :: b49 :: b50 :: b51 ::
    b52 :: b53 :: b54 :: b55 :: b56 :: b57 :: b58 :: b59 :: b60 :: b61 ::
    b62 :: b63 :: _rest =>
      some { iout0 := b0, iout1 := b1, iout2 := b2, iout3 := b3,
             version := toSigned16 (b4 * 256 + b5),
             roi_type := toSigned8 b6,
             pad_byte := b7,
             top := toSigned16 (b8 * 256 + b9),
             left := toSigned16 (b10 * 256 + b11),
             bottom := toSigned16 (b12 * 256 + b13),
             right := toSigned16 (b14 * 256 + b15),
             n_coordinates := toSigned16 (b16 * 256 + b17),
             x1 := toSigned32 (((b18 * 256 + b19) * 256 + b20) * 256 + b21),
             y1 := toSigned32 (((b22 * 256 + b23) * 256 + b24) * 256 + b25),
             x2 := toSigned32 (((b26 * 256 + b27) * 256 + b28) * 256 + b29),
             y2 := toSigned32 (((b30 * 256 + b31) * 256 + b32) * 256 + b33),
             stroke_width := toSigned16 (b34 * 256 + b35),
             shape_roi_size := toSigned32 (((b36 * 256 + b37) * 256 + b38) * 256 + b39),
             stroke_color := toSigned32 (((b40 * 256 + b41) * 256 + b42) * 256 + b43),
             fill_color := toSigned32 (((b44 * 256 + b45) * 256 + b46) * 256 + b47),
             subtype := toSigned16 (b48 * 256 + b49),
             options := toSigned16 (b50 * 256 + b51),
             arrow_style := toSigned8 b52,
             arrow_head_size := toSigned8 b53,
             rounded_rect_arc_size := toSigned16 (b54 * 256 + b55),
             position := toSigned32 (((b56 * 256 + b57) * 256 + b58) * 256 + b59),
             header2_offset := toSigned32 (((b60 * 256 + b61) * 256 + b62) * 256 + b63) }
  | _ => none

/-- Read all fields of the secondary header layout from the start of `w`:
52 bytes consumed in wire order, big-endian. -/
def readRoiHeader2 (w : List Nat) : Option RoiHeader2 :=
  match w with
  | b0 :: b1 :: b2 :: b3 :: b4 :: b5 :: b6 :: b7 :: b8 :: b9 :: b10 :: b11 ::
    b12 :: b13 :: b14 :: b15 :: b16 :: b17 :: b18 :: b19 :: b20 :: b21 ::
    b22 :: b23 :: b24 :: b25 :: b26 :: b27 :: b28 :: b29 :: b30 :: b31 ::
    b32 :: b33 :: b34 :: b35 :: b36 :: b37 :: b38 :: b39 :: b40 :: b41 ::
    b42 :: b43 :: b44 :: b45 :: b46 :: b47 :: b48 :: b49 :: b50 :: b51 ::
    _rest =>
      some { nil_field := toSigned32 (((b0 * 256 + b1) * 256 + b2) * 256 + b3),
             c := toSigned32 (((b4 * 256 + b5) * 256 + b6) * 256 + b7),
             z := toSigned32 (((b8 * 256 + b9) * 256 + b10) * 256 + b11),
             t := toSigned32 (((b12 * 256 + b13) * 256 + b14) * 256 + b15),
             name_offset := toSigned32 (((b16 * 256 + b17) * 256 + b18) * 256 + b19),
             name_length := toSigned32 (((b20 * 256 + b21) * 256 + b22) * 256 + b23),
             overlay_label_color := toSigned32 (((b24 * 256 + b25) * 256 + b26) * 256 + b27),
             overlay_font_size := toSigned16 (b28 * 256 + b29),
             available_byte1 := toSigned8 b30,
             image_opacity := toSigned8 b31,
             image_size := toSigned32 (((b32 * 256 + b33) * 256 + b34) * 256 + b35),
             float_stroke_width_bits := ((b36 * 256 + b37) * 256 + b38) * 256 + b39,
             roi_props_offset := toSigned32 (((b40 * 256 + b41) * 256 + b42) * 256 + b43),
             roi_props_length := toSigned32 (((b44 * 256 + b45) * 256 + b46) * 256 + b47),
             counters_offset := toSigned32 (((b48 * 256 + b49) * 256 + b50) * 256 + b51) }
  | _ => none


/-- Decode a primary header at byte offset `off` of `data`
(`new_record(IMAGEJ_ROI_HEADER, data=data, offset=off)`): the buffer must
hold at least `off + itemsize` bytes. -/
def parseRoiHeader (data : List Nat) (off : Nat) : Except DecodeError RoiHeader :=
  if data.length < off + layout_itemsize IMAGEJ_ROI_HEADER then
    .error .bufferTooShort
  else
    match readRoiHeader (data.drop off) with
    | some h => .ok h
    | none => .error .bufferTooShort

/-- Decode a secondary header at byte offset `off` of `data`. -/
def parseRoiHeader2 (data : List Nat) (off : Nat) : Except DecodeError RoiHeader2 :=
  if data.length < off + layout_itemsize IMAGEJ_ROI_HEADER2 then
    .error .bufferTooShort
  else
    match readRoiHeader2 (data.drop off) with
    | some h => .ok h
    | none => .error .bufferTooShort

/-- Validity of a UTF-16 code-unit sequence: hi surrogates must be
followed by lo surrogates and lo surrogates must not appear alone
(Python's strict `utf-16be` decoder rejects unpaired surrogates). -/
def utf16ValidUnits : List Nat → Bool
  | [] => true
  | [u] => if 55296 ≤ u ∧ u ≤ 57343 then false else true
  | u :: v :: rest =>
    if 55296 ≤ u ∧ u ≤ 56319 then
      (if 56320 ≤ v ∧ v ≤ 57343 then utf16ValidUnits rest else false)
    else if 56320 ≤ u ∧ u ≤ 57343 then false
    else utf16ValidUnits (v :: rest)

/-- Decode the name: take `data[name_offset : name_offset + name_length*2]`
and decode it as UTF-16BE, yielding the list of 16-bit code units.  The
slice stop is computed in numpy int32 scalar arithmetic (`name_offset`
and `name_length` are `i4` scalars), so it wraps at 32 bits. -/
def parseName (data : List Nat) (nameOff nameLen : Int) :
    Except DecodeError (List Nat) :=
  let bytes := pySlice data nameOff (wrap32 (nameOff + wrap32 (nameLen * 2)))
  if bytes.length % 2 ≠ 0 then .error .badName
  else
    let units := toPairs bytes
    if utf16ValidUnits units then .ok units else .error .badName

/-- Decode the coordinate array: an `(n, 2)` int16 big-endian Fortran-order
numpy array over `data[itemsize : itemsize + 2*2*n]` — the first `2n` bytes
are the x column, the next `2n` bytes the y column.  The slice stop is
computed in numpy int16 scalar arithmetic (`n_coordinates` is an `i2`
scalar), so it wraps at 16 bits; the array itself still requires `4*n`
bytes of buffer. -/
def parseCoordinates (data : List Nat) (n : Int) :
    Except DecodeError (List (Int × Int)) :=
  if n < 0 then .error .badShape
  else
    let nn := n.toNat
    let buf := pySlice data (layout_itemsize IMAGEJ_ROI_HEADER : Int)
      (wrap16 ((layout_itemsize IMAGEJ_ROI_HEADER : Int) + wrap16 (2 * 2 * n)))
    if buf.length < 2 * 2 * nn then .error .bufferTooShort
    else .ok ((toI16s (buf.take (2 * nn))).zip (toI16s (buf.drop (2 * nn))))

/-- The decoded overlay: `name`, optional `coordinates`, and every
non-underscore field of both headers flattened in (the result dict of
`imagej_parse_overlay`). -/
structure Overlay where
  name : List Nat
  coordinates : Option (List (Int × Int))
  version : Int
  roi_type : Int
  top : Int
  left : Int
  bottom : Int
  right : Int
  n_coordinates : Int
  x1 : Int
  y1 : Int
  x2 : Int
  y2 : Int
  stroke_width : Int
  shape_roi_size : Int
  stroke_color : Int
  fill_color : Int
  subtype : Int
  options : Int
  arrow_style : Int
  arrow_head_size : Int
  rounded_rect_arc_size : Int
  position : Int
  header2_offset : Int
  c : Int
  z : Int
  t : Int
  name_offset : Int
  name_length : Int
  overlay_label_color : Int
  overlay_font_size : Int
  available_byte1 : Int
  image_opacity : Int
  image_size : Int
  float_stroke_width_bits : Nat
  roi_props_offset : Int
  roi_props_length : Int
  counters_offset : Int

/-- Flatten both headers, the name and the optional coordinate array
into the overlay result (the dict-building loop of `imagej_parse_overlay`). -/
def mkOverlay (h : RoiHeader) (h2 : RoiHeader2) (nm : List Nat)
    (co : Option (List (Int × Int))) : Overlay :=
  { name := nm, coordinates := co, version := h.version,
    roi_type := h.roi_type, top := h.top, left := h.left, bottom := h.bottom,
    right := h.right, n_coordinates := h.n_coordinates, x1 := h.x1,
    y1 := h.y1, x2 := h.x2, y2 := h.y2, stroke_width := h.stroke_width,
    shape_roi_size := h.shape_roi_size, stroke_color := h.stroke_color,
    fill_color := h.fill_color, subtype := h.subtype, options := h.options,
    arrow_style := h.arrow_style, arrow_head_size := h.arrow_head_size,
    rounded_rect_arc_size := h.rounded_rect_arc_size, position := h.position,
    header2_offset := h.header2_offset, c := h2.c, z := h2.z, t := h2.t,
    name_offset := h2.name_offset, name_length := h2.name_length,
    overlay_label_color := h2.overlay_label_color,
    overlay_font_size := h2.overlay_font_size,
    available_byte1 := h2.available_byte1, image_opacity := h2.image_opacity,
    image_size := h2.image_size,
    float_stroke_width_bits := h2.float_stroke_width_bits,
    roi_props_offset := h2.roi_props_offset,
    roi_props_length := h2.roi_props_length,
    counters_offset := h2.counters_offset }

/-- Decode one raw ROI record (`imagej_parse_overlay`): primary header at
offset 0, secondary header at `header2_offset`, optional UTF-16BE name,
and — only for the supported roi types — the coordinate array. -/
def imagej_parse_overlay (data : List Nat) : Except DecodeError Overlay :=
  match parseRoiHeader data 0 with
  | .error e => .error e
  | .ok hdr =>
    if hdr.header2_offset < 0 then .error .offsetOutOfRange
    else
      match parseRoiHeader2 data hdr.header2_offset.toNat with
      | .error e => .error e
      | .ok hdr2 =>
        match (if hdr2.name_offset > 0 then
                parseName data hdr2.name_offset hdr2.name_length
              else .ok []) with
        | .error e => .error e
        | .ok nm =>
          match (if hdr.roi_type ∈ IMAGEJ_SUPPORTED_OVERLAYS then
                  (match parseCoordinates data hdr.n_coordinates with
                   | .error e => .error e
                   | .ok co => .ok (some co) :
                     Except DecodeError (Option (List (Int × Int))))
                else .ok none) with
          | .error e => .error e
          | .ok co => .ok (mkOverlay hdr hdr2 nm co)

/-! ## Encoder (`imagej_create_roi`) -/

/-- Hex digit characters, lowercase (Python `%x`). -/
def hexDigitChar (n : Nat) : Char :=
  if n < 10 then Char.ofNat (48 + n) else Char.ofNat (87 + n)

/-- Fuel-driven most-significant-first hex digit expansion. -/
def hexCharsAux : Nat → Nat → List Char
  | 0, _ => []
  | fuel + 1, n =>
      if n = 0 then []
      else hexCharsAux fuel (n / 16) ++ [hexDigitChar (n % 16)]

/-- Python `'%x' % n` for a nonnegative integer. -/
def hexStr (n : Nat) : String :=
  if n = 0 then "0" else String.mk (hexCharsAux n n)

/-- Python `'%02d' % v`: minimum width 2, zero padded (sign included in
the width). -/
def pyFormat02d (v : Int) : String :=
  if v < 0 then "-" ++ toString (-v)
  else if v < 10 then "0" ++ toString v
  else toString v

/-- Name synthesis of `imagej_create_roi` when `name is None`: with no
index, `'F%02d-%x' % (t+1, random32)`; with an index,
`'F%02d-C%d' % (t+1, index)`. -/
def synthesize_name (t : Int) (index : Option Int) (rnd : Nat) : String :=
  match index with
  | none => "F" ++ pyFormat02d (t + 1) ++ "-" ++ hexStr rnd
  | some i => "F" ++ pyFormat02d (t + 1) ++ "-C" ++ toString i

/-- UTF-16 code units of one character (surrogate pair above the BMP). -/
def utf16CodeUnits (ch : Char) : List Nat :=
  if ch.toNat < 65536 then [ch.toNat]
  else [55296 + (ch.toNat - 65536) / 1024, 56320 + (ch.toNat - 65536) % 1024]

/-- UTF-16 code units of a string (Python `str.encode('utf-16be')`,
two bytes per unit). -/
def utf16units (s : String) : List Nat :=
  List.flatten (s.data.map utf16CodeUnits)

/-- `left`: the minimum x over the (nonempty) point list. -/
def roi_left (p0 : Int × Int) (ps : List (Int × Int)) : Int :=
  ps.foldl (fun a q => min a q.1) p0.1

/-- `top`: the minimum y over the (nonempty) point list. -/
def roi_top (p0 : Int × Int) (ps : List (Int × Int)) : Int :=
  ps.foldl (fun a q => min a q.2) p0.2

/-- The points translated by `(-left, -top)`. -/
def roi_translated (p0 : Int × Int) (ps : List (Int × Int)) : List (Int × Int) :=
  (p0 :: ps).map (fun q => (q.1 - roi_left p0 ps, q.2 - roi_top p0 ps))

/-- `points.astype('>i2').tobytes(order='F')`: the x column then the
y column, each value as int16 big-endian. -/
def roi_encoded_data (p0 : Int × Int) (ps : List (Int × Int)) : List Nat :=
  encCol ((roi_translated p0 ps).map Prod.fst) ++
    encCol ((roi_translated p0 ps).map Prod.snd)

/-- The primary header record built by `imagej_create_roi`: a fresh
zero-filled record with the tag, version, roi type, bounding-box corner,
count, options, position and secondary-header offset assigned (numpy
assignment wraps each value to its field width). -/
def roi_header (p0 : Int × Int) (ps : List (Int × Int)) (t : Int) : RoiHeader :=
  { iout0 := 73, iout1 := 111, iout2 := 117, iout3 := 116,
    version := wrap16 IJM_ROI_VERSION, roi_type := wrap8 CONST_IJ_FREEHAND,
    pad_byte := 0, top := wrap16 (roi_top p0 ps),
    left := wrap16 (roi_left p0 ps), bottom := 0, right := 0,
    n_coordinates := wrap16 ((p0 :: ps).length : Int),
    x1 := 0, y1 := 0, x2 := 0, y2 := 0, stroke_width := 0,
    shape_roi_size := 0, stroke_color := 0, fill_color := 0, subtype := 0,
    options := wrap16 40, arrow_style := 0, arrow_head_size := 0,
    rounded_rect_arc_size := 0, position := wrap32 (t + 1),
    header2_offset := wrap32 ((layout_itemsize IMAGEJ_ROI_HEADER : Int)
      + ((roi_encoded_data p0 ps).length : Int)) }

/-- The secondary header record built by `imagej_create_roi`: zero-filled
except for `name_offset` (read back from the primary header's field and
shifted past the secondary header) and `name_length` (the character count
of the name, not its byte count). -/
def roi_header2 (p0 : Int × Int) (ps : List (Int × Int)) (t : Int)
    (nm : String) : RoiHeader2 :=
  { nil_field := 0, c := 0, z := 0, t := 0,
    name_offset := wrap32 ((roi_header p0 ps t).header2_offset
      + (layout_itemsize IMAGEJ_ROI_HEADER2 : Int)),
    name_length := wrap32 (nm.data.length : Int),
    overlay_label_color := 0, overlay_font_size := 0, available_byte1 := 0,
    image_opacity := 0, image_size := 0, float_stroke_width_bits := 0,
    roi_props_offset := 0, roi_props_length := 0, counters_offset := 0 }

/-- Encode one ROI record (`imagej_create_roi`): synthesize a name when
none is given, translate the points to the bounding-box origin, and emit
primary header ++ coordinate bytes ++ secondary header ++ UTF-16BE name.
`c` and `z` are accepted but never used by the source; `rnd` models the
result of `np.random.randint(0, 2**32 - 1)`.  The point list must be
nonempty (numpy `min` of an empty array raises). -/
def imagej_create_roi (points : List (Int × Int)) (name : Option String)
    (c z t : Int) (index : Option Int) (rnd : Nat) : Option (List Nat) :=
  match points with
  | [] => none
  | p0 :: ps =>
    let nm := name.getD (synthesize_name t index rnd)
    some (RoiHeader.tobytes (roi_header p0 ps t) ++
      (roi_encoded_data p0 ps ++
        (RoiHeader2.tobytes (roi_header2 p0 ps t nm) ++
          List.flatten ((utf16units nm).map encU16be))))

/-! ## Metadata block assembler and writer session -/

/-- Assemble the metadata block (`imagej_prepare_metadata`): an
"IJIJ"/"over" header with the record count, the concatenated records,
and the per-segment byte-count list headed by the header size. -/
def imagej_prepare_metadata (overlays : List (List Nat)) :
    List Nat × List Nat :=
  let mh : MetaHeader :=
    { magic := wrap32 CONSTANT_MAGIC_NUMBER, type := wrap32 CONSTANT_OVERLAY,
      count := wrap32 (overlays.length : Int) }
  (MetaHeader.tobytes mh ++ List.flatten overlays,
    layout_itemsize IMAGEJ_META_HEADER :: overlays.map List.length)

/-- The writer-session state used by the monkey-patched save: the pending
encoded ROI records and the one-shot emission flag. -/
structure TiffWriterState where
  ijm_roi_data : List (List Nat)
  ijm_first_written : Bool
deriving DecidableEq

/-- One extra TIFF tag handed to the underlying writer:
`(code, dtype, count, value)`. -/
structure TiffExtraTag where
  code : Nat
  dtype : Char
  count : Nat
  value : List Nat
deriving DecidableEq

/-- The monkey-patched save (`TiffWriter_new_save`) reduced to its
tag-attachment effect: if the metadata block was already written or no
ROI records are pending, forward to the unmodified save (no extra tags);
otherwise attach the byte-count tag 50838 and the metadata tag 50839 and
set the one-shot flag. -/
def TiffWriter_new_save (s : TiffWriterState) :
    TiffWriterState × List TiffExtraTag :=
  if s.ijm_first_written || s.ijm_roi_data.length == 0 then (s, [])
  else
    let md_bc := imagej_prepare_metadata s.ijm_roi_data
    ({ s with ijm_first_written := true },
      [{ code := 50838, dtype := 'I', count := md_bc.2.length, value := md_bc.2 },
       { code := 50839, dtype := 'B', count := md_bc.1.length, value := md_bc.1 }])

/-- Concrete record for the unsupported-roi-type scenario: a valid encoded
record whose `roi_type` byte (offset 6) is overwritten with 77. -/
def c6data : List Nat :=
  ((imagej_create_roi [((1 : Int), 2)] (some ("A")) 0 0 0 none 0).getD []).set 6 77

/-! ## Basic arithmetic lemmas for the primitives -/

theorem wrap8_eq_self {v : Int} (h1 : -128 ≤ v) (h2 : v < 128) : wrap8 v = v := by
  unfold wrap8 toSigned8
  split <;> omega

theorem wrap16_eq_self {v : Int} (h1 : -32768 ≤ v) (h2 : v < 32768) : wrap16 v = v := by
  unfold wrap16 toSigned16
  split <;> omega

theorem wrap32_eq_self {v : Int} (h1 : -2147483648 ≤ v) (h2 : v < 2147483648) :
    wrap32 v = v := by
  unfold wrap32 toSigned32
  split <;> omega

theorem wrap8_bounds (v : Int) : -128 ≤ wrap8 v ∧ wrap8 v < 128 := by
  unfold wrap8 toSigned8
  split <;> omega

theorem wrap16_bounds (v : Int) : -32768 ≤ wrap16 v ∧ wrap16 v < 32768 := by
  unfold wrap16 toSigned16
  split <;> omega

theorem wrap32_bounds (v : Int) : -2147483648 ≤ wrap32 v ∧ wrap32 v < 2147483648 := by
  unfold wrap32 toSigned32
  split <;> omega

@[simp] theorem wrap8_wrap8 (v : Int) : wrap8 (wrap8 v) = wrap8 v :=
  wrap8_eq_self (wrap8_bounds v).1 (wrap8_bounds v).2

@[simp] theorem wrap16_wrap16 (v : Int) : wrap16 (wrap16 v) = wrap16 v :=
  wrap16_eq_self (wrap16_bounds v).1 (wrap16_bounds v).2

@[simp] theorem wrap32_wrap32 (v : Int) : wrap32 (wrap32 v) = wrap32 v :=
  wrap32_eq_self (wrap32_bounds v).1 (wrap32_bounds v).2

theorem rdU8_cons (b : Nat) (r : List Nat) : rdU8 (b :: r) = some (b, r) := rfl

theorem rdI8_enc (v : Int) (r : List Nat) :
    rdI8 (encI8be v ++ r) = some (wrap8 v, r) := by
  simp [encI8be, rdI8, wrap8]

theorem rdI16_enc (v : Int) (r : List Nat) :
    rdI16 (encI16be v ++ r) = some (wrap16 v, r) := by
  have h : (v % 65536).toNat / 256 % 256 * 256 + (v % 65536).toNat % 256
      = (v % 65536).toNat := by omega
  simp [encI16be, encU16be, rdI16, wrap16, h]

theorem rdI32_enc (v : Int) (r : List Nat) :
    rdI32 (encI32be v ++ r) = some (wrap32 v, r) := by
  have h : (((v % 4294967296).toNat / 16777216 % 256 * 256
        + (v % 4294967296).toNat / 65536 % 256) * 256
        + (v % 4294967296).toNat / 256 % 256) * 256
        + (v % 4294967296).toNat % 256 = (v % 4294967296).toNat := by omega
  simp [encI32be, encU32be, rdI32, wrap32, h]

theorem rdU32_enc (u : Nat) (r : List Nat) :
    rdU32 (encU32be u ++ r) = some (u % 4294967296, r) := by
  have h : (u / 16777216 % 256 * 256 + u / 65536 % 256) * 256 * 256
      + u / 256 % 256 * 256 + u % 256 = u % 4294967296 := by omega
  simp [encU32be, rdU32]
  omega

@[simp] theorem encI8be_length (v : Int) : (encI8be v).length = 1 := rfl

@[simp] theorem encU16be_length (u : Nat) : (encU16be u).length = 2 := rfl

@[simp] theorem encI16be_length (v : Int) : (encI16be v).length = 2 := rfl

@[simp] theorem encU32be_length (u : Nat) : (encU32be u).length = 4 := rfl

@[simp] theorem encI32be_length (v : Int) : (encI32be v).length = 4 := rfl

@[simp] theorem encCol_length (vs : List Int) : (encCol vs).length = 2 * vs.length := by
  induction vs with
  | nil => rfl
  | cons v vs ih =>
      simp [encCol, List.flatten, List.map] at *
      omega

theorem toI16s_encCol (vs : List Int) : toI16s (encCol vs) = vs.map wrap16 := by
  induction vs with
  | nil => rfl
  | cons v vs ih =>
      have h : (v % 65536).toNat / 256 % 256 * 256 + (v % 65536).toNat % 256
          = (v % 65536).toNat := by omega
      simp only [encCol, List.map, List.flatten] at *
      simp [encI16be, encU16be, toI16s, h, ih, wrap16]

theorem toPairs_enc (us : List Nat) :
    toPairs (List.flatten (us.map encU16be)) = us.map (· % 65536) := by
  induction us with
  | nil => rfl
  | cons u us ih =>
      have h : u / 256 % 256 * 256 + u % 256 = u % 65536 := by omega
      simp only [List.map, List.flatten]
      simp [encU16be, toPairs, h, ih]

theorem pySlice_eval (data : List Nat) (a b : Int) (ha0 : 0 ≤ a)
    (hab : a ≤ b) (hb : b ≤ data.length) :
    pySlice data a b = (data.take b.toNat).drop a.toNat := by
  unfold pySlice
  have h1 : ¬ a < 0 := by omega
  have h2 : ¬ b < 0 := by omega
  have e1 : min a (data.length : Int) = a := min_eq_left (by omega)
  have e2 : min b (data.length : Int) = b := min_eq_left hb
  simp only [h1, h2, if_false, e1, e2]

/-! ## Layout sizes -/

@[simp] theorem roi_header_itemsize : layout_itemsize IMAGEJ_ROI_HEADER = 64 := rfl

@[simp] theorem roi_header2_itemsize : layout_itemsize IMAGEJ_ROI_HEADER2 = 52 := rfl

@[simp] theorem meta_header_itemsize : layout_itemsize IMAGEJ_META_HEADER = 12 := rfl

@[simp] theorem roi_header_tobytes_length (h : RoiHeader) :
    (RoiHeader.tobytes h).length = 64 := by
  simp [RoiHeader.tobytes]

@[simp] theorem roi_header2_tobytes_length (h : RoiHeader2) :
    (RoiHeader2.tobytes h).length = 52 := by
  simp [RoiHeader2.tobytes]

@[simp] theorem meta_header_tobytes_length (m : MetaHeader) :
    (MetaHeader.tobytes m).length = 12 := by
  simp [MetaHeader.tobytes]

/-! ## Parsing a serialized header -/

theorem dec8_of_enc (v : Int) : toSigned8 ((v % 256).toNat) = wrap8 v := rfl

theorem dec16_of_enc (v : Int) :
    toSigned16 ((v % 65536).toNat / 256 % 256 * 256 + (v % 65536).toNat % 256)
      = wrap16 v := by
  unfold wrap16
  congr 1
  omega

theorem dec32_of_enc (v : Int) :
    toSigned32 ((((v % 4294967296).toNat / 16777216 % 256 * 256
        + (v % 4294967296).toNat / 65536 % 256) * 256
        + (v % 4294967296).toNat / 256 % 256) * 256
        + (v % 4294967296).toNat % 256) = wrap32 v := by
  unfold wrap32
  congr 1
  omega

theorem decU32_of_enc (u : Nat) :
    ((u / 16777216 % 256 * 256 + u / 65536 % 256) * 256
        + u / 256 % 256) * 256 + u % 256 = u % 4294967296 := by
  omega

theorem dec32_of_enc' (v : Int) :
    toSigned32 ((v % 4294967296).toNat % 4294967296) = wrap32 v := by
  unfold wrap32
  congr 1
  omega

theorem readRoiHeader_tobytes (h : RoiHeader) (r : List Nat) :
    readRoiHeader (RoiHeader.tobytes h ++ r) = some (canonRoiHeader h) := by
  simp only [RoiHeader.tobytes, encI16be, encI32be, encI8be, encU16be,
    encU32be, List.cons_append, List.nil_append, List.append_assoc]
  simp only [readRoiHeader, canonRoiHeader, dec8_of_enc, dec16_of_enc,
    dec32_of_enc]

theorem readRoiHeader2_tobytes (h : RoiHeader2) (r : List Nat) :
    readRoiHeader2 (RoiHeader2.tobytes h ++ r) = some (canonRoiHeader2 h) := by
  simp only [RoiHeader2.tobytes, encI16be, encI32be, encI8be, encU16be,
    encU32be, List.cons_append, List.nil_append, List.append_assoc]
  simp only [readRoiHeader2, canonRoiHeader2, dec8_of_enc, dec16_of_enc,
    dec32_of_enc, decU32_of_enc, dec32_of_enc']

theorem parseRoiHeader_tobytes (h : RoiHeader) (r : List Nat) :
    parseRoiHeader (RoiHeader.tobytes h ++ r) 0 = .ok (canonRoiHeader h) := by
  unfold parseRoiHeader
  rw [if_neg (by simp)]
  rw [List.drop_zero, readRoiHeader_tobytes]

theorem parseRoiHeader2_at (A : List Nat) (h2 : RoiHeader2) (r : List Nat) :
    parseRoiHeader2 (A ++ (RoiHeader2.tobytes h2 ++ r)) A.length
      = .ok (canonRoiHeader2 h2) := by
  unfold parseRoiHeader2
  rw [if_neg (by simp)]
  rw [List.drop_left, readRoiHeader2_tobytes]

/-! ## The encoder's records survive storage reinterpretation -/

@[simp] theorem wrap8_zero : wrap8 0 = 0 := rfl

@[simp] theorem wrap16_zero : wrap16 0 = 0 := rfl

@[simp] theorem wrap32_zero : wrap32 0 = 0 := rfl

theorem canon_roi_header (p0 : Int × Int) (ps : List (Int × Int)) (t : Int) :
    canonRoiHeader (roi_header p0 ps t) = roi_header p0 ps t := by
  simp [canonRoiHeader, roi_header]

theorem canon_roi_header2 (p0 : Int × Int) (ps : List (Int × Int)) (t : Int)
    (nm : String) :
    canonRoiHeader2 (roi_header2 p0 ps t nm) = roi_header2 p0 ps t nm := by
  simp [canonRoiHeader2, roi_header2]

/-! ## Minimum of a fold -/

theorem foldl_min_le_init (l : List Int) (a : Int) : l.foldl min a ≤ a := by
  induction l generalizing a with
  | nil => simp
  | cons x l ih =>
      exact le_trans (ih (min a x)) (min_le_left a x)

theorem foldl_min_le_mem (l : List Int) (a x : Int) (hx : x ∈ l) :
    l.foldl min a ≤ x := by
  induction l generalizing a with
  | nil => cases hx
  | cons y l ih =>
      rcases List.mem_cons.mp hx with h | h
      · subst h
        exact le_trans (foldl_min_le_init l (min a x)) (min_le_right a x)
      · exact ih (min a y) h

theorem foldl_min_mem (l : List Int) (a : Int) :
    l.foldl min a = a ∨ l.foldl min a ∈ l := by
  induction l generalizing a with
  | nil => left; rfl
  | cons x l ih =>
      rcases ih (min a x) with h | h
      · rcases min_choice a x with hm | hm
        · left; rw [List.foldl_cons, h, hm]
        · right; rw [List.foldl_cons, h, hm]; exact List.mem_cons_self x l
      · right; exact List.mem_cons_of_mem x h

theorem roi_left_eq_foldl (p0 : Int × Int) (ps : List (Int × Int)) :
    roi_left p0 ps = (ps.map Prod.fst).foldl min p0.1 := by
  rw [roi_left, List.foldl_map]

theorem roi_top_eq_foldl (p0 : Int × Int) (ps : List (Int × Int)) :
    roi_top p0 ps = (ps.map Prod.snd).foldl min p0.2 := by
  rw [roi_top, List.foldl_map]

theorem roi_left_le (p0 : Int × Int) (ps : List (Int × Int)) :
    ∀ q ∈ p0 :: ps, roi_left p0 ps ≤ q.1 := by
  intro q hq
  rw [roi_left_eq_foldl]
  rcases List.mem_cons.mp hq with h | h
  · subst h; exact foldl_min_le_init _ _
  · exact foldl_min_le_mem _ _ _ (List.mem_map_of_mem Prod.fst h)

theorem roi_top_le (p0 : Int × Int) (ps : List (Int × Int)) :
    ∀ q ∈ p0 :: ps, roi_top p0 ps ≤ q.2 := by
  intro q hq
  rw [roi_top_eq_foldl]
  rcases List.mem_cons.mp hq with h | h
  · subst h; exact foldl_min_le_init _ _
  · exact foldl_min_le_mem _ _ _ (List.mem_map_of_mem Prod.snd h)

theorem roi_left_mem (p0 : Int × Int) (ps : List (Int × Int)) :
    roi_left p0 ps ∈ (p0 :: ps).map Prod.fst := by
  rw [roi_left_eq_foldl, List.map_cons]
  rcases foldl_min_mem (ps.map Prod.fst) p0.1 with h | h
  · rw [h]; exact List.mem_cons_self _ _
  · exact List.mem_cons_of_mem _ h

theorem roi_top_mem (p0 : Int × Int) (ps : List (Int × Int)) :
    roi_top p0 ps ∈ (p0 :: ps).map Prod.snd := by
  rw [roi_top_eq_foldl, List.map_cons]
  rcases foldl_min_mem (ps.map Prod.snd) p0.2 with h | h
  · rw [h]; exact List.mem_cons_self _ _
  · exact List.mem_cons_of_mem _ h

/-! ## UTF-16 name facts -/

theorem char_not_surrogate (ch : Char) :
    ch.toNat < 55296 ∨ 57343 < ch.toNat := by
  rcases ch.valid with h | ⟨h1, _⟩
  · left; exact h
  · right; exact h1

theorem utf16_flatten_bmp (l : List Char) (h : ∀ ch ∈ l, ch.toNat < 65536) :
    List.flatten (l.map utf16CodeUnits) = l.map Char.toNat := by
  induction l with
  | nil => rfl
  | cons ch l ih =>
      have hch := h ch (List.mem_cons_self ch l)
      simp only [List.map_cons, List.flatten_cons, utf16CodeUnits, if_pos hch]
      rw [ih (fun x hx => h x (List.mem_cons_of_mem ch hx))]
      rfl

theorem utf16units_bmp (s : String) (h : ∀ ch ∈ s.data, ch.toNat < 65536) :
    utf16units s = s.data.map Char.toNat :=
  utf16_flatten_bmp s.data h

theorem utf16Valid_of_no_surrogates (us : List Nat)
    (h : ∀ u ∈ us, u < 55296 ∨ 57343 < u) : utf16ValidUnits us = true := by
  induction us with
  | nil => rfl
  | cons u rest ih =>
      have hu := h u (List.mem_cons_self u rest)
      have hrest : ∀ v ∈ rest, v < 55296 ∨ 57343 < v :=
        fun v hv => h v (List.mem_cons_of_mem u hv)
      cases rest with
      | nil =>
          simp only [utf16ValidUnits]
          rw [if_neg (by omega)]
      | cons v rest2 =>
          simp only [utf16ValidUnits]
          rw [if_neg (by omega), if_neg (by omega)]
          have := ih hrest
          simpa only [utf16ValidUnits] using this

theorem encU16s_length (us : List Nat) :
    (List.flatten (us.map encU16be)).length = 2 * us.length := by
  induction us with
  | nil => rfl
  | cons u us ih =>
      rw [List.map_cons, List.flatten_cons, List.length_append,
        encU16be_length, ih, List.length_cons]
      omega

/-! ## Evaluating `pySlice` on natural bounds -/

theorem pySlice_nat (data : List Nat) (a b : Nat) (hb : b ≤ data.length) :
    pySlice data (a : Int) (b : Int) = (data.take b).drop a := by
  unfold pySlice
  have h1 : ¬ ((a : Int) < 0) := by omega
  have h2 : ¬ ((b : Int) < 0) := by omega
  have e1 : min (a : Int) ((data.length : Nat) : Int) = min a data.length := by
    omega
  have e2 : min (b : Int) ((data.length : Nat) : Int) = (b : Int) := by
    omega
  simp only [h1, h2, if_false, e2, e1]
  have e3 : ((min a data.length : Nat) : Int).toNat = min a data.length := by
    omega
  have e4 : ((b : Int)).toNat = b := by omega
  rw [e3, e4]
  rcases Nat.le_total a data.length with hc | hc
  · rw [min_eq_left hc]
  · rw [min_eq_right hc]
    rw [List.drop_eq_nil_of_le (by simp only [List.length_take]; omega),
      List.drop_eq_nil_of_le (by simp only [List.length_take]; omega)]

/-! ## Decoding the encoded name and coordinates -/

theorem parseName_encoded (A : List Nat) (us : List Nat)
    (hlt : ∀ u ∈ us, u < 65536) (hsur : ∀ u ∈ us, u < 55296 ∨ 57343 < u)
    (hb : A.length + 2 * us.length < 2147483648) :
    parseName (A ++ List.flatten (us.map encU16be)) (A.length : Int)
      (us.length : Int) = .ok us := by
  have hflat : (List.flatten (us.map encU16be)).length = 2 * us.length :=
    encU16s_length us
  have hlen : (A ++ List.flatten (us.map encU16be)).length
      = A.length + 2 * us.length := by
    rw [List.length_append, hflat]
  have hstop : wrap32 ((A.length : Int) + wrap32 ((us.length : Int) * 2))
      = ((A.length + 2 * us.length : Nat) : Int) := by
    have h1 : wrap32 ((us.length : Int) * 2) = (us.length : Int) * 2 :=
      wrap32_eq_self (by omega) (by omega)
    rw [h1, wrap32_eq_self (by omega) (by omega)]
    push_cast
    ring
  have hmap : us.map (· % 65536) = us := by
    have hc := List.map_congr_left
      (fun u hu => Nat.mod_eq_of_lt (hlt u hu) :
        ∀ u ∈ us, u % 65536 = (fun x => x) u)
    simpa using hc
  simp only [parseName, hstop]
  rw [pySlice_nat _ _ _ (le_of_eq hlen.symm)]
  rw [← hlen, List.take_length, List.drop_left]
  rw [if_neg (by rw [hflat]; omega)]
  rw [toPairs_enc, hmap, if_pos (utf16Valid_of_no_surrogates us hsur)]

theorem parseCoordinates_encoded (A : List Nat) (hA : A.length = 64)
    (xs ys : List Int) (hxy : xs.length = ys.length) (r : List Nat)
    (h8 : xs.length ≤ 8175) :
    parseCoordinates (A ++ ((encCol xs ++ encCol ys) ++ r)) (xs.length : Int)
      = .ok ((xs.map wrap16).zip (ys.map wrap16)) := by
  have hx2 : (encCol xs).length = 2 * xs.length := encCol_length xs
  have hy2 : (encCol ys).length = 2 * ys.length := encCol_length ys
  have hlen : (A ++ ((encCol xs ++ encCol ys) ++ r)).length
      = 64 + 4 * xs.length + r.length := by
    simp only [List.length_append, hA, hx2, hy2]
    omega
  have hnn : ((xs.length : Int)).toNat = xs.length := by omega
  have hstop : wrap16 (((64 : Nat) : Int) + wrap16 (2 * 2 * (xs.length : Int)))
      = ((64 + 4 * xs.length : Nat) : Int) := by
    have h1 : wrap16 (2 * 2 * (xs.length : Int)) = 2 * 2 * (xs.length : Int) :=
      wrap16_eq_self (by omega) (by omega)
    rw [h1, wrap16_eq_self (by omega) (by omega)]
    push_cast
    ring
  simp only [parseCoordinates, roi_header_itemsize, hnn, hstop]
  rw [if_neg (by omega)]
  rw [pySlice_nat _ _ _ (by omega)]
  have hsplit : A ++ ((encCol xs ++ encCol ys) ++ r)
      = (A ++ (encCol xs ++ encCol ys)) ++ r := by
    simp [List.append_assoc]
  have htake : ((A ++ ((encCol xs ++ encCol ys) ++ r)).take (64 + 4 * xs.length))
      = A ++ (encCol xs ++ encCol ys) := by
    rw [hsplit]
    apply List.take_left'
    simp only [List.length_append, hA, hx2, hy2]
    omega
  rw [htake, show (64 : Nat) = A.length from hA.symm, List.drop_left]
  have hblen : (encCol xs ++ encCol ys).length = 2 * 2 * xs.length := by
    rw [List.length_append, hx2, hy2]
    omega
  rw [if_neg (by omega)]
  rw [List.take_left' (by rw [hx2]), List.drop_left' (by rw [hx2])]
  rw [toI16s_encCol, toI16s_encCol]

/-! ## Parsing the encoder's output -/

theorem roi_translated_length (p0 : Int × Int) (ps : List (Int × Int)) :
    (roi_translated p0 ps).length = (p0 :: ps).length := by
  simp [roi_translated]

theorem roi_encoded_data_length (p0 : Int × Int) (ps : List (Int × Int)) :
    (roi_encoded_data p0 ps).length = 4 * (p0 :: ps).length := by
  simp only [roi_encoded_data, List.length_append, encCol_length,
    List.length_map, roi_translated_length]
  omega

theorem roi_header2_offset_val (p0 : Int × Int) (ps : List (Int × Int)) (t : Int) :
    (roi_header p0 ps t).header2_offset
      = wrap32 (64 + 4 * ((p0 :: ps).length : Int)) := by
  simp only [roi_header, roi_header_itemsize, roi_encoded_data_length]
  congr 1

theorem roi_name_offset_val (p0 : Int × Int) (ps : List (Int × Int)) (t : Int)
    (nm : String) :
    (roi_header2 p0 ps t nm).name_offset
      = wrap32 ((roi_header p0 ps t).header2_offset + 52) := by
  simp only [roi_header2, roi_header2_itemsize]
  norm_num

theorem parse_header_of_create (p0 : Int × Int) (ps : List (Int × Int))
    (t : Int) (rest : List Nat) :
    parseRoiHeader (RoiHeader.tobytes (roi_header p0 ps t) ++ rest) 0
      = .ok (roi_header p0 ps t) := by
  rw [parseRoiHeader_tobytes, canon_roi_header]

theorem parse_header2_of_create (p0 : Int × Int) (ps : List (Int × Int))
    (t : Int) (nm : String) (rest : List Nat) :
    parseRoiHeader2 (RoiHeader.tobytes (roi_header p0 ps t) ++
        (roi_encoded_data p0 ps ++
          (RoiHeader2.tobytes (roi_header2 p0 ps t nm) ++ rest)))
      (64 + 4 * (p0 :: ps).length) = .ok (roi_header2 p0 ps t nm) := by
  have hsplit : RoiHeader.tobytes (roi_header p0 ps t) ++
        (roi_encoded_data p0 ps ++
          (RoiHeader2.tobytes (roi_header2 p0 ps t nm) ++ rest))
      = (RoiHeader.tobytes (roi_header p0 ps t) ++ roi_encoded_data p0 ps) ++
          (RoiHeader2.tobytes (roi_header2 p0 ps t nm) ++ rest) := by
    simp [List.append_assoc]
  have hlen : (RoiHeader.tobytes (roi_header p0 ps t) ++
      roi_encoded_data p0 ps).length = 64 + 4 * (p0 :: ps).length := by
    rw [List.length_append, roi_header_tobytes_length, roi_encoded_data_length]
  rw [hsplit, ← hlen, parseRoiHeader2_at, canon_roi_header2]

theorem parse_overlay_of_create
    (p0 : Int × Int) (ps : List (Int × Int)) (nm : String) (c z t : Int)
    (idx : Option Int) (rnd : Nat)
    (hn : (p0 :: ps).length ≤ 8175)
    (hnm : ∀ ch ∈ nm.data, ch.toNat < 65536)
    (hnmlen : nm.data.length < 536870912)
    (hx : ∀ q ∈ p0 :: ps, q.1 - roi_left p0 ps ≤ 32767)
    (hy : ∀ q ∈ p0 :: ps, q.2 - roi_top p0 ps ≤ 32767) :
    imagej_create_roi (p0 :: ps) (some nm) c z t idx rnd
        = some (RoiHeader.tobytes (roi_header p0 ps t) ++
            (roi_encoded_data p0 ps ++
              (RoiHeader2.tobytes (roi_header2 p0 ps t nm) ++
                List.flatten ((utf16units nm).map encU16be)))) ∧
      imagej_parse_overlay (RoiHeader.tobytes (roi_header p0 ps t) ++
            (roi_encoded_data p0 ps ++
              (RoiHeader2.tobytes (roi_header2 p0 ps t nm) ++
                List.flatten ((utf16units nm).map encU16be))))
        = .ok (mkOverlay (roi_header p0 ps t) (roi_header2 p0 ps t nm)
            (nm.data.map Char.toNat) (some (roi_translated p0 ps))) := by
  have hus : utf16units nm = nm.data.map Char.toNat := utf16units_bmp nm hnm
  have huslen : (utf16units nm).length = nm.data.length := by
    rw [hus, List.length_map]
  have hofval : (roi_header p0 ps t).header2_offset
      = 64 + 4 * ((p0 :: ps).length : Int) := by
    rw [roi_header2_offset_val]
    exact wrap32_eq_self (by omega) (by omega)
  have hnameoff : (roi_header2 p0 ps t nm).name_offset
      = 116 + 4 * ((p0 :: ps).length : Int) := by
    rw [roi_name_offset_val, hofval,
      show (64 + 4 * ((p0 :: ps).length : Int)) + 52
        = 116 + 4 * ((p0 :: ps).length : Int) from by ring]
    exact wrap32_eq_self (by omega) (by omega)
  have hnamelen : (roi_header2 p0 ps t nm).name_length
      = (nm.data.length : Int) := by
    simp only [roi_header2]
    exact wrap32_eq_self (by omega) (by omega)
  have hntype : (roi_header p0 ps t).roi_type = 7 := by
    simp only [roi_header]
    decide
  have hncoord : (roi_header p0 ps t).n_coordinates
      = ((p0 :: ps).length : Int) := by
    simp only [roi_header]
    exact wrap16_eq_self (by omega) (by omega)
  refine ⟨rfl, ?_⟩
  have hc1 : ¬ ((roi_header p0 ps t).header2_offset < 0) := by
    rw [hofval]
    omega
  have hhdr2 : parseRoiHeader2 (RoiHeader.tobytes (roi_header p0 ps t) ++
      (roi_encoded_data p0 ps ++
        (RoiHeader2.tobytes (roi_header2 p0 ps t nm) ++
          List.flatten ((utf16units nm).map encU16be))))
      ((roi_header p0 ps t).header2_offset).toNat
      = .ok (roi_header2 p0 ps t nm) := by
    rw [hofval, show ((64 + 4 * ((p0 :: ps).length : Int))).toNat
      = 64 + 4 * (p0 :: ps).length from by omega]
    exact parse_header2_of_create p0 ps t nm _
  have hc2 : (roi_header2 p0 ps t nm).name_offset > 0 := by
    rw [hnameoff]
    omega
  have hname : parseName (RoiHeader.tobytes (roi_header p0 ps t) ++
      (roi_encoded_data p0 ps ++
        (RoiHeader2.tobytes (roi_header2 p0 ps t nm) ++
          List.flatten ((utf16units nm).map encU16be))))
      (roi_header2 p0 ps t nm).name_offset (roi_header2 p0 ps t nm).name_length
      = .ok (nm.data.map Char.toNat) := by
    have hshape : RoiHeader.tobytes (roi_header p0 ps t) ++
        (roi_encoded_data p0 ps ++
          (RoiHeader2.tobytes (roi_header2 p0 ps t nm) ++
            List.flatten ((utf16units nm).map encU16be)))
        = (RoiHeader.tobytes (roi_header p0 ps t) ++
            (roi_encoded_data p0 ps ++
              RoiHeader2.tobytes (roi_header2 p0 ps t nm))) ++
            List.flatten ((utf16units nm).map encU16be) := by
      simp [List.append_assoc]
    have hAlen : (RoiHeader.tobytes (roi_header p0 ps t) ++
        (roi_encoded_data p0 ps ++
          RoiHeader2.tobytes (roi_header2 p0 ps t nm))).length
        = 116 + 4 * (p0 :: ps).length := by
      simp only [List.length_append, roi_header_tobytes_length,
        roi_header2_tobytes_length, roi_encoded_data_length]
      omega
    have hlt : ∀ u ∈ utf16units nm, u < 65536 := by
      intro u hu
      rw [hus] at hu
      obtain ⟨ch, hch, rfl⟩ := List.mem_map.mp hu
      exact hnm ch hch
    have hsur : ∀ u ∈ utf16units nm, u < 55296 ∨ 57343 < u := by
      intro u hu
      rw [hus] at hu
      obtain ⟨ch, hch, rfl⟩ := List.mem_map.mp hu
      exact char_not_surrogate ch
    have h1 := parseName_encoded (RoiHeader.tobytes (roi_header p0 ps t) ++
        (roi_encoded_data p0 ps ++
          RoiHeader2.tobytes (roi_header2 p0 ps t nm)))
        (utf16units nm) hlt hsur (by rw [hAlen, huslen]; omega)
    rw [hAlen, huslen] at h1
    rw [hshape, hnameoff, hnamelen]
    rw [show (116 + 4 * ((p0 :: ps).length : Int))
      = ((116 + 4 * (p0 :: ps).length : Nat) : Int) from by push_cast; ring]
    rw [show ((nm.data.length : Int)) = ((nm.data.length : Nat) : Int) from rfl]
    rw [h1, hus]
  have hc3 : (roi_header p0 ps t).roi_type ∈ IMAGEJ_SUPPORTED_OVERLAYS := by
    rw [hntype]
    decide
  have hcoord : parseCoordinates (RoiHeader.tobytes (roi_header p0 ps t) ++
      (roi_encoded_data p0 ps ++
        (RoiHeader2.tobytes (roi_header2 p0 ps t nm) ++
          List.flatten ((utf16units nm).map encU16be))))
      (roi_header p0 ps t).n_coordinates
      = .ok (roi_translated p0 ps) := by
    have hxslen : ((roi_translated p0 ps).map Prod.fst).length
        = (p0 :: ps).length := by
      rw [List.length_map, roi_translated_length]
    have hyslen : ((roi_translated p0 ps).map Prod.snd).length
        = (p0 :: ps).length := by
      rw [List.length_map, roi_translated_length]
    have h2 := parseCoordinates_encoded
      (RoiHeader.tobytes (roi_header p0 ps t)) (roi_header_tobytes_length _)
      ((roi_translated p0 ps).map Prod.fst) ((roi_translated p0 ps).map Prod.snd)
      (by rw [hxslen, hyslen])
      (RoiHeader2.tobytes (roi_header2 p0 ps t nm) ++
        List.flatten ((utf16units nm).map encU16be))
      (by rw [hxslen]; exact hn)
    have hxw : ((roi_translated p0 ps).map Prod.fst).map wrap16
        = (roi_translated p0 ps).map Prod.fst := by
      have h' : ∀ x ∈ (roi_translated p0 ps).map Prod.fst, wrap16 x = id x := by
        intro x hx'
        obtain ⟨q', hq', rfl⟩ := List.mem_map.mp hx'
        obtain ⟨q, hq, rfl⟩ := List.mem_map.mp hq'
        exact wrap16_eq_self (by have := roi_left_le p0 ps q hq; simp; omega)
          (by have := hx q hq; simp; omega)
      rw [List.map_congr_left h', List.map_id]
    have hyw : ((roi_translated p0 ps).map Prod.snd).map wrap16
        = (roi_translated p0 ps).map Prod.snd := by
      have h' : ∀ x ∈ (roi_translated p0 ps).map Prod.snd, wrap16 x = id x := by
        intro x hx'
        obtain ⟨q', hq', rfl⟩ := List.mem_map.mp hx'
        obtain ⟨q, hq, rfl⟩ := List.mem_map.mp hq'
        exact wrap16_eq_self (by have := roi_top_le p0 ps q hq; simp; omega)
          (by have := hy q hq; simp; omega)
      rw [List.map_congr_left h', List.map_id]
    rw [hxw, hyw, List.zip_map'] at h2
    simp only [Prod.mk.eta, List.map_id'] at h2
    rw [hncoord, ← hxslen]
    rw [show roi_encoded_data p0 ps
      = encCol ((roi_translated p0 ps).map Prod.fst) ++
          encCol ((roi_translated p0 ps).map Prod.snd) from rfl]
    exact h2
  simp only [imagej_parse_overlay, parse_header_of_create, if_neg hc1, hhdr2,
    if_pos hc2, hname, if_pos hc3, hcoord]

/-! ## Helper facts for the claims -/

theorem encI32be_wrap32 (v : Int) : encI32be (wrap32 v) = encI32be v := by
  unfold encI32be wrap32 toSigned32
  congr 1
  split <;> omega

theorem supported_subset_known :
    ∀ x ∈ IMAGEJ_SUPPORTED_OVERLAYS, x ∈ KNOWN_ROI_TYPES := by
  intro x hx
  fin_cases hx <;> decide

theorem roi_translated_fst_wrap (p0 : Int × Int) (ps : List (Int × Int))
    (hx : ∀ q ∈ p0 :: ps, q.1 - roi_left p0 ps ≤ 32767) :
    ((roi_translated p0 ps).map Prod.fst).map wrap16
      = (roi_translated p0 ps).map Prod.fst := by
  have h' : ∀ x ∈ (roi_translated p0 ps).map Prod.fst, wrap16 x = id x := by
    intro x hx'
    obtain ⟨q', hq', rfl⟩ := List.mem_map.mp hx'
    obtain ⟨q, hq, rfl⟩ := List.mem_map.mp hq'
    exact wrap16_eq_self (by have := roi_left_le p0 ps q hq; simp; omega)
      (by have := hx q hq; simp; omega)
  rw [List.map_congr_left h', List.map_id]

theorem roi_translated_snd_wrap (p0 : Int × Int) (ps : List (Int × Int))
    (hy : ∀ q ∈ p0 :: ps, q.2 - roi_top p0 ps ≤ 32767) :
    ((roi_translated p0 ps).map Prod.snd).map wrap16
      = (roi_translated p0 ps).map Prod.snd := by
  have h' : ∀ x ∈ (roi_translated p0 ps).map Prod.snd, wrap16 x = id x := by
    intro x hx'
    obtain ⟨q', hq', rfl⟩ := List.mem_map.mp hx'
    obtain ⟨q, hq, rfl⟩ := List.mem_map.mp hq'
    exact wrap16_eq_self (by have := roi_top_le p0 ps q hq; simp; omega)
      (by have := hy q hq; simp; omega)
  rw [List.map_congr_left h', List.map_id]

theorem parse_coords_of_create (p0 : Int × Int) (ps : List (Int × Int))
    (t : Int) (rest : List Nat)
    (hn : (p0 :: ps).length ≤ 8175)
    (hx : ∀ q ∈ p0 :: ps, q.1 - roi_left p0 ps ≤ 32767)
    (hy : ∀ q ∈ p0 :: ps, q.2 - roi_top p0 ps ≤ 32767) :
    parseCoordinates (RoiHeader.tobytes (roi_header p0 ps t) ++
      (roi_encoded_data p0 ps ++ rest)) (roi_header p0 ps t).n_coordinates
      = .ok (roi_translated p0 ps) := by
  have hncoord : (roi_header p0 ps t).n_coordinates
      = ((p0 :: ps).length : Int) := by
    simp only [roi_header]
    exact wrap16_eq_self (by omega) (by omega)
  have hxslen : ((roi_translated p0 ps).map Prod.fst).length
      = (p0 :: ps).length := by
    rw [List.length_map, roi_translated_length]
  have hyslen : ((roi_translated p0 ps).map Prod.snd).length
      = (p0 :: ps).length := by
    rw [List.length_map, roi_translated_length]
  have h2 := parseCoordinates_encoded
    (RoiHeader.tobytes (roi_header p0 ps t)) (roi_header_tobytes_length _)
    ((roi_translated p0 ps).map Prod.fst) ((roi_translated p0 ps).map Prod.snd)
    (by rw [hxslen, hyslen]) rest (by rw [hxslen]; exact hn)
  have hxw : ((roi_translated p0 ps).map Prod.fst).map wrap16
      = (roi_translated p0 ps).map Prod.fst := by
    have h' : ∀ x ∈ (roi_translated p0 ps).map Prod.fst, wrap16 x = id x := by
      intro x hx'
      obtain ⟨q', hq', rfl⟩ := List.mem_map.mp hx'
      obtain ⟨q, hq, rfl⟩ := List.mem_map.mp hq'
      exact wrap16_eq_self (by have := roi_left_le p0 ps q hq; simp; omega)
        (by have := hx q hq; simp; omega)
    rw [List.map_congr_left h', List.map_id]
  have hyw : ((roi_translated p0 ps).map Prod.snd).map wrap16
      = (roi_translated p0 ps).map Prod.snd := by
    have h' : ∀ x ∈ (roi_translated p0 ps).map Prod.snd, wrap16 x = id x := by
      intro x hx'
      obtain ⟨q', hq', rfl⟩ := List.mem_map.mp hx'
      obtain ⟨q, hq, rfl⟩ := List.mem_map.mp hq'
      exact wrap16_eq_self (by have := roi_top_le p0 ps q hq; simp; omega)
        (by have := hy q hq; simp; omega)
    rw [List.map_congr_left h', List.map_id]
  rw [hxw, hyw, List.zip_map'] at h2
  simp only [Prod.mk.eta, List.map_id'] at h2
  rw [hncoord, ← hxslen]
  rw [show roi_encoded_data p0 ps
    = encCol ((roi_translated p0 ps).map Prod.fst) ++
        encCol ((roi_translated p0 ps).map Prod.snd) from rfl]
  exact h2

theorem roi_translated_nonneg (p0 : Int × Int) (ps : List (Int × Int)) :
    ∀ q ∈ roi_translated p0 ps, 0 ≤ q.1 ∧ 0 ≤ q.2 := by
  intro q hq
  obtain ⟨q', hq', rfl⟩ := List.mem_map.mp hq
  constructor
  · have := roi_left_le p0 ps q' hq'
    simp
    omega
  · have := roi_top_le p0 ps q' hq'
    simp
    omega

theorem hexCharsAux_length_le (fuel : Nat) :
    ∀ (k n : Nat), n < 16 ^ k → (hexCharsAux fuel n).length ≤ k := by
  induction fuel with
  | zero =>
      intro k n _
      simp [hexCharsAux]
  | succ fuel ih =>
      intro k n hk
      by_cases h0 : n = 0
      · simp [hexCharsAux, h0]
      · cases k with
        | zero =>
            simp at hk
            omega
        | succ k' =>
            have hdiv : n / 16 < 16 ^ k' := by
              apply Nat.div_lt_of_lt_mul
              rw [Nat.mul_comm]
              rw [pow_succ] at hk
              exact hk
            simp only [hexCharsAux, h0, if_false]
            rw [List.length_append]
            have := ih k' (n / 16) hdiv
            simp
            omega

theorem hexStr_length_le (n : Nat) (h : n < 4294967296) :
    (hexStr n).length ≤ 8 := by
  by_cases h0 : n = 0
  · rw [h0]
    decide
  · unfold hexStr
    rw [if_neg h0]
    have : (String.mk (hexCharsAux n n)).length = (hexCharsAux n n).length := rfl
    rw [this]
    exact hexCharsAux_length_le n 8 n (by norm_num; omega)

theorem hexStr_length_pos (n : Nat) : 1 ≤ (hexStr n).length := by
  unfold hexStr
  by_cases h0 : n = 0
  · rw [if_pos h0]
    decide
  · rw [if_neg h0]
    have hmk : (String.mk (hexCharsAux n n)).length = (hexCharsAux n n).length := rfl
    rw [hmk]
    cases n with
    | zero => exact absurd rfl h0
    | succ m =>
        simp only [hexCharsAux, if_neg h0]
        rw [List.length_append]
        simp

theorem hexCharsAux_digits (fuel : Nat) :
    ∀ (n : Nat), ∀ ch ∈ hexCharsAux fuel n,
      (48 ≤ ch.toNat ∧ ch.toNat ≤ 57) ∨ (97 ≤ ch.toNat ∧ ch.toNat ≤ 102) := by
  induction fuel with
  | zero =>
      intro n ch hch
      simp [hexCharsAux] at hch
  | succ fuel ih =>
      intro n ch hch
      by_cases h0 : n = 0
      · simp [hexCharsAux, h0] at hch
      · simp only [hexCharsAux, h0, if_false] at hch
        rcases List.mem_append.mp hch with h | h
        · exact ih (n / 16) ch h
        · have hm : n % 16 < 16 := Nat.mod_lt n (by norm_num)
          rw [List.mem_singleton] at h
          subst h
          generalize hgen : n % 16 = m at hm
          interval_cases m <;> decide

theorem hexStr_digits (n : Nat) :
    ∀ ch ∈ (hexStr n).data,
      (48 ≤ ch.toNat ∧ ch.toNat ≤ 57) ∨ (97 ≤ ch.toNat ∧ ch.toNat ≤ 102) := by
  unfold hexStr
  by_cases h0 : n = 0
  · rw [if_pos h0]
    decide
  · rw [if_neg h0]
    exact hexCharsAux_digits n n

/-! ## Claims -/

/-- Claim C4: for every list of already-encoded ROI byte-records, the
metadata assembler returns the 12-byte block header (magic `0x494A494A`,
type `0x6F766572`, count `n`) followed by the records in input order, and
a byte-length list with exactly `n + 1` entries headed by the header size. -/
theorem claim_c4 (rs : List (List Nat)) :
    (imagej_prepare_metadata rs).1
        = (encI32be CONSTANT_MAGIC_NUMBER ++ (encI32be CONSTANT_OVERLAY ++
            encI32be ((rs.length : Nat) : Int))) ++ List.flatten rs ∧
    (imagej_prepare_metadata rs).2
        = layout_itemsize IMAGEJ_META_HEADER :: rs.map List.length ∧
    layout_itemsize IMAGEJ_META_HEADER = 12 ∧
    (imagej_prepare_metadata rs).2.length = rs.length + 1 ∧
    (encI32be CONSTANT_MAGIC_NUMBER ++ (encI32be CONSTANT_OVERLAY ++
        encI32be ((rs.length : Nat) : Int))).length = 12 ∧
    CONSTANT_MAGIC_NUMBER = 0x494a494a ∧ CONSTANT_OVERLAY = 0x6f766572 := by
  refine ⟨?_, ?_, rfl, ?_, ?_, rfl, rfl⟩
  · simp only [imagej_prepare_metadata, MetaHeader.tobytes, encI32be_wrap32,
      List.append_assoc]
  · rfl
  · simp [imagej_prepare_metadata]
  · simp

/-- Claim C5: on one writer session, the metadata-emission step attaches
the two extra tags only on the first save call made while pending ROI
records exist; once the one-shot flag is set, every further save call
attaches no tags and leaves the session state unchanged (the unmodified
underlying save). -/
theorem claim_c5 (s : TiffWriterState) (h1 : s.ijm_first_written = false)
    (h2 : s.ijm_roi_data ≠ []) :
    (TiffWriter_new_save s).2.length = 2 ∧
    (TiffWriter_new_save s).1.ijm_first_written = true ∧
    (TiffWriter_new_save s).1.ijm_roi_data = s.ijm_roi_data ∧
    TiffWriter_new_save ((TiffWriter_new_save s).1)
      = ((TiffWriter_new_save s).1, []) ∧
    (∀ s2 : TiffWriterState, s2.ijm_first_written = true →
      TiffWriter_new_save s2 = (s2, [])) := by
  have hcond : (s.ijm_first_written || (s.ijm_roi_data.length == 0)) = false := by
    rw [h1]
    simp [List.length_eq_zero, h2]
  have hsave2 : ∀ s2 : TiffWriterState, s2.ijm_first_written = true →
      TiffWriter_new_save s2 = (s2, []) := by
    intro s2 hs2
    simp [TiffWriter_new_save, hs2]
  refine ⟨?_, ?_, ?_, ?_, hsave2⟩
  · simp [TiffWriter_new_save, hcond]
  · simp [TiffWriter_new_save, hcond]
  · simp [TiffWriter_new_save, hcond]
  · simp [TiffWriter_new_save, hcond, hsave2]

/-- Claim C7 counterexample: the primary ROI header layout's serialized
size — the sum of its declared field sizes — is 64 bytes, not 62 as the
specification states. -/
theorem claim_c7_counterexample :
    layout_itemsize IMAGEJ_ROI_HEADER = 64 ∧
    layout_itemsize IMAGEJ_ROI_HEADER ≠ 62 := by
  decide

/-- Claim C7 (amended): the primary ROI header layout has 24 declared
fields beginning with the 4-byte literal tag `"Iout"`, a fixed serialized
size of 64 bytes (the sum of its field sizes), and the encoder writes the
version constant 226 and the `"Iout"` tag bytes into every record it
produces. -/
theorem claim_c7 :
    layout_itemsize IMAGEJ_ROI_HEADER = 64 ∧
    IMAGEJ_ROI_HEADER.length = 24 ∧
    layout_itemsize IMAGEJ_ROI_HEADER = (IMAGEJ_ROI_HEADER.map Prod.snd).sum ∧
    IMAGEJ_ROI_HEADER.head? = some ("_iout", 4) ∧
    (∀ h : RoiHeader,
      (RoiHeader.tobytes h).length = layout_itemsize IMAGEJ_ROI_HEADER) ∧
    IJM_ROI_VERSION = 226 ∧
    (∀ (p0 : Int × Int) (ps : List (Int × Int)) (nmo : Option String)
        (c z t : Int) (idx : Option Int) (rnd : Nat),
      ∃ d hdr,
        imagej_create_roi (p0 :: ps) nmo c z t idx rnd = some d ∧
        parseRoiHeader d 0 = .ok hdr ∧
        hdr.version = IJM_ROI_VERSION ∧
        hdr.iout0 = 73 ∧ hdr.iout1 = 111 ∧ hdr.iout2 = 117 ∧
        hdr.iout3 = 116) := by
  refine ⟨rfl, rfl, rfl, rfl, fun h => by simp, rfl, ?_⟩
  intro p0 ps nmo c z t idx rnd
  refine ⟨_, roi_header p0 ps t, rfl, parse_header_of_create p0 ps t _,
    ?_, rfl, rfl, rfl, rfl⟩
  simp only [roi_header]
  decide

/-- Claim C9: decoding a buffer shorter than the primary header size
fails with `BufferTooShort`; more generally, each fixed-layout decode at
offset `off` of a buffer holding fewer than `off + itemsize` bytes fails
with `BufferTooShort` (failure is atomic by construction: the `Except`
result carries no partial record). -/
theorem claim_c9 :
    (∀ data : List Nat, data.length < layout_itemsize IMAGEJ_ROI_HEADER →
      imagej_parse_overlay data = .error .bufferTooShort) ∧
    (∀ (data : List Nat) (off : Nat),
      data.length < off + layout_itemsize IMAGEJ_ROI_HEADER →
      parseRoiHeader data off = .error .bufferTooShort) ∧
    (∀ (data : List Nat) (off : Nat),
      data.length < off + layout_itemsize IMAGEJ_ROI_HEADER2 →
      parseRoiHeader2 data off = .error .bufferTooShort) := by
  have hp : ∀ (data : List Nat) (off : Nat),
      data.length < off + layout_itemsize IMAGEJ_ROI_HEADER →
      parseRoiHeader data off = .error .bufferTooShort := by
    intro data off h
    unfold parseRoiHeader
    rw [if_pos h]
  refine ⟨?_, hp, ?_⟩
  · intro data h
    have h0 : data.length < 0 + layout_itemsize IMAGEJ_ROI_HEADER := by
      simpa using h
    simp only [imagej_parse_overlay, hp data 0 h0]
  · intro data off h
    unfold parseRoiHeader2
    rw [if_pos h]

/-- Claim C9 witness: the empty buffer is shorter than the 64-byte
primary header and decoding it fails with `BufferTooShort`. -/
theorem claim_c9_witness :
    ([] : List Nat).length < layout_itemsize IMAGEJ_ROI_HEADER ∧
    imagej_parse_overlay [] = .error .bufferTooShort :=
  ⟨by decide, claim_c9.1 [] (by decide)⟩

/-- Claim C10: the encoder's output bytes are identical across any two
calls differing only in `c` and/or `z`, and the encoded secondary
header's `c`, `z` and `t` numeric fields are all zero. -/
theorem claim_c10 (p0 : Int × Int) (ps : List (Int × Int)) (nm : String)
    (c z c' z' t : Int) (idx : Option Int) (rnd : Nat) :
    imagej_create_roi (p0 :: ps) (some nm) c z t idx rnd
        = imagej_create_roi (p0 :: ps) (some nm) c' z' t idx rnd ∧
    ∃ d hdr2,
      imagej_create_roi (p0 :: ps) (some nm) c z t idx rnd = some d ∧
      parseRoiHeader2 d (64 + 4 * (p0 :: ps).length) = .ok hdr2 ∧
      hdr2.c = 0 ∧ hdr2.z = 0 ∧ hdr2.t = 0 :=
  ⟨rfl, _, roi_header2 p0 ps t nm, rfl,
    parse_header2_of_create p0 ps t nm _, rfl, rfl, rfl⟩

/-- Claim C2: every record the encoder produces has
`header2_offset = primaryHeaderSize + 4 * nPoints` and
`name_offset = header2_offset + secondaryHeaderSize` (stated for point
lists short enough for the 16-bit coordinate count, as everywhere in the
wire format). -/
theorem claim_c2 (p0 : Int × Int) (ps : List (Int × Int)) (nmo : Option String)
    (c z t : Int) (idx : Option Int) (rnd : Nat)
    (hn : (p0 :: ps).length ≤ 32767) :
    ∃ d hdr hdr2,
      imagej_create_roi (p0 :: ps) nmo c z t idx rnd = some d ∧
      parseRoiHeader d 0 = .ok hdr ∧
      hdr.header2_offset = (layout_itemsize IMAGEJ_ROI_HEADER : Int)
        + 4 * ((p0 :: ps).length : Int) ∧
      parseRoiHeader2 d hdr.header2_offset.toNat = .ok hdr2 ∧
      hdr2.name_offset = hdr.header2_offset
        + (layout_itemsize IMAGEJ_ROI_HEADER2 : Int) := by
  have hoff : (roi_header p0 ps t).header2_offset
      = 64 + 4 * ((p0 :: ps).length : Int) := by
    rw [roi_header2_offset_val]
    exact wrap32_eq_self (by omega) (by omega)
  refine ⟨_, roi_header p0 ps t,
    roi_header2 p0 ps t (nmo.getD (synthesize_name t idx rnd)), rfl,
    parse_header_of_create p0 ps t _, ?_, ?_, ?_⟩
  · rw [hoff, roi_header_itemsize]
    norm_num
  · rw [hoff, show ((64 + 4 * ((p0 :: ps).length : Int))).toNat
      = 64 + 4 * (p0 :: ps).length from by omega]
    exact parse_header2_of_create p0 ps t _ _
  · rw [roi_name_offset_val, hoff, roi_header2_itemsize]
    rw [show (64 + 4 * ((p0 :: ps).length : Int)) + 52
      = 116 + 4 * ((p0 :: ps).length : Int) from by ring]
    rw [wrap32_eq_self (by omega) (by omega)]
    push_cast
    ring

/-- Claim C2 witness: a single-point record at `t = 0` has
`header2_offset = 64 + 4` and `name_offset = 68 + 52`. -/
theorem claim_c2_witness :
    ([((1 : Int), 2)] : List (Int × Int)).length ≤ 32767 ∧
    (∃ d hdr hdr2,
      imagej_create_roi [((1 : Int), 2)] (some ("A")) 0 0 0 none 0 = some d ∧
      parseRoiHeader d 0 = .ok hdr ∧
      hdr.header2_offset = (layout_itemsize IMAGEJ_ROI_HEADER : Int)
        + 4 * (([((1 : Int), 2)] : List (Int × Int)).length : Int) ∧
      parseRoiHeader2 d hdr.header2_offset.toNat = .ok hdr2 ∧
      hdr2.name_offset = hdr.header2_offset
        + (layout_itemsize IMAGEJ_ROI_HEADER2 : Int)) :=
  ⟨by decide, claim_c2 ((1 : Int), 2) [] (some ("A")) 0 0 0 none 0 (by decide)⟩

/-- Claim C3 counterexample: for the points `[(40000,0), (80000,0)]` the
encoded primary header's `left` field is not the minimum x (40000 wraps
to -25536 in the 16-bit field), and a serialized translated coordinate
(40000, stored as -25536) is negative. -/
theorem claim_c3_counterexample :
    ∃ d hdr co,
      imagej_create_roi [((40000 : Int), 0), (80000, 0)] (some ("A"))
          0 0 0 none 0 = some d ∧
      parseRoiHeader d 0 = .ok hdr ∧
      hdr.left ≠ 40000 ∧
      parseCoordinates d hdr.n_coordinates = .ok co ∧
      ¬ (∀ q ∈ co, 0 ≤ q.1) := by
  refine ⟨_, _, _, rfl, rfl, by decide, rfl, by decide⟩

/-- Claim C3 (amended): for every nonempty point list of at most 32767
points whose minima and translated coordinates fit the signed 16-bit
coordinate fields, the encoded primary header's `left` and `top` are the
minimum x and minimum y over the points, and every coordinate value
serialized into the record (reading the stored int16 columns back) equals
the nonnegative translated value; for at most 8175 points (where the
decoder's int16 slice arithmetic does not wrap) the decoder also returns
exactly the translated points. -/
theorem claim_c3 (p0 : Int × Int) (ps : List (Int × Int)) (nmo : Option String)
    (c z t : Int) (idx : Option Int) (rnd : Nat)
    (hn : (p0 :: ps).length ≤ 32767)
    (hleft : -32768 ≤ roi_left p0 ps ∧ roi_left p0 ps < 32768)
    (htop : -32768 ≤ roi_top p0 ps ∧ roi_top p0 ps < 32768)
    (hx : ∀ q ∈ p0 :: ps, q.1 - roi_left p0 ps ≤ 32767)
    (hy : ∀ q ∈ p0 :: ps, q.2 - roi_top p0 ps ≤ 32767) :
    ∃ d hdr,
      imagej_create_roi (p0 :: ps) nmo c z t idx rnd = some d ∧
      parseRoiHeader d 0 = .ok hdr ∧
      hdr.left = roi_left p0 ps ∧ hdr.top = roi_top p0 ps ∧
      (∀ q ∈ p0 :: ps, hdr.left ≤ q.1 ∧ hdr.top ≤ q.2) ∧
      hdr.left ∈ (p0 :: ps).map Prod.fst ∧
      hdr.top ∈ (p0 :: ps).map Prod.snd ∧
      roi_encoded_data p0 ps
        = encCol ((roi_translated p0 ps).map Prod.fst) ++
            encCol ((roi_translated p0 ps).map Prod.snd) ∧
      toI16s (encCol ((roi_translated p0 ps).map Prod.fst))
        = (roi_translated p0 ps).map Prod.fst ∧
      toI16s (encCol ((roi_translated p0 ps).map Prod.snd))
        = (roi_translated p0 ps).map Prod.snd ∧
      (∀ q ∈ roi_translated p0 ps, 0 ≤ q.1 ∧ 0 ≤ q.2) ∧
      ((p0 :: ps).length ≤ 8175 →
        parseCoordinates d hdr.n_coordinates = .ok (roi_translated p0 ps)) := by
  have hl : (roi_header p0 ps t).left = roi_left p0 ps := by
    simp only [roi_header]
    exact wrap16_eq_self hleft.1 hleft.2
  have ht : (roi_header p0 ps t).top = roi_top p0 ps := by
    simp only [roi_header]
    exact wrap16_eq_self htop.1 htop.2
  refine ⟨_, roi_header p0 ps t, rfl, parse_header_of_create p0 ps t _,
    hl, ht, ?_, ?_, ?_, rfl, ?_, ?_, roi_translated_nonneg p0 ps, ?_⟩
  · intro q hq
    rw [hl, ht]
    exact ⟨roi_left_le p0 ps q hq, roi_top_le p0 ps q hq⟩
  · rw [hl]
    exact roi_left_mem p0 ps
  · rw [ht]
    exact roi_top_mem p0 ps
  · rw [toI16s_encCol]
    exact roi_translated_fst_wrap p0 ps hx
  · rw [toI16s_encCol]
    exact roi_translated_snd_wrap p0 ps hy
  · intro h8
    exact parse_coords_of_create p0 ps t _ h8 hx hy

/-- Claim C3 witness: encoding `[(10,20),(15,25)]` yields `left = 10`,
`top = 20`, nonnegative stored coordinate columns, and the decoder
returns the translated points. -/
theorem claim_c3_witness :
    (([((10 : Int), 20), (15, 25)] : List (Int × Int)).length ≤ 32767 ∧
      (-32768 ≤ roi_left ((10 : Int), 20) [(15, 25)] ∧
        roi_left ((10 : Int), 20) [(15, 25)] < 32768) ∧
      (∀ q ∈ [((10 : Int), 20), (15, 25)],
        q.1 - roi_left ((10 : Int), 20) [(15, 25)] ≤ 32767)) ∧
    (∃ d hdr,
      imagej_create_roi [((10 : Int), 20), (15, 25)] (some ("A"))
          0 0 0 none 0 = some d ∧
      parseRoiHeader d 0 = .ok hdr ∧
      hdr.left = roi_left ((10 : Int), 20) [(15, 25)] ∧
      hdr.top = roi_top ((10 : Int), 20) [(15, 25)] ∧
      (∀ q ∈ [((10 : Int), 20), (15, 25)], hdr.left ≤ q.1 ∧ hdr.top ≤ q.2) ∧
      hdr.left ∈ ([((10 : Int), 20), (15, 25)] : List (Int × Int)).map Prod.fst ∧
      hdr.top ∈ ([((10 : Int), 20), (15, 25)] : List (Int × Int)).map Prod.snd ∧
      roi_encoded_data ((10 : Int), 20) [(15, 25)]
        = encCol ((roi_translated ((10 : Int), 20) [(15, 25)]).map Prod.fst) ++
            encCol ((roi_translated ((10 : Int), 20) [(15, 25)]).map Prod.snd) ∧
      toI16s (encCol ((roi_translated ((10 : Int), 20) [(15, 25)]).map Prod.fst))
        = (roi_translated ((10 : Int), 20) [(15, 25)]).map Prod.fst ∧
      toI16s (encCol ((roi_translated ((10 : Int), 20) [(15, 25)]).map Prod.snd))
        = (roi_translated ((10 : Int), 20) [(15, 25)]).map Prod.snd ∧
      (∀ q ∈ roi_translated ((10 : Int), 20) [(15, 25)], 0 ≤ q.1 ∧ 0 ≤ q.2) ∧
      (([((10 : Int), 20), (15, 25)] : List (Int × Int)).length ≤ 8175 →
        parseCoordinates d hdr.n_coordinates
          = .ok (roi_translated ((10 : Int), 20) [(15, 25)]))) :=
  ⟨⟨by decide, by decide, by decide⟩,
    claim_c3 ((10 : Int), 20) [(15, 25)] (some ("A")) 0 0 0 none 0
      (by decide) (by decide) (by decide) (by decide) (by decide)⟩

/-- Claim C6: decoding a record whose `roi_type` lies outside the 11
known enumeration values does not fail: provided the structural reads
succeed (headers in bounds, name decodable when present), the decode
returns the flattened record with `coordinates` absent, the `roi_type`
value preserved opaquely, and the name populated when `name_offset > 0`. -/
theorem claim_c6 (data : List Nat) (hdr : RoiHeader) (hdr2 : RoiHeader2)
    (nm : List Nat)
    (h1 : parseRoiHeader data 0 = .ok hdr)
    (hunk : hdr.roi_type ∉ KNOWN_ROI_TYPES)
    (h2 : ¬ hdr.header2_offset < 0)
    (h3 : parseRoiHeader2 data hdr.header2_offset.toNat = .ok hdr2)
    (h4 : (hdr2.name_offset > 0 ∧
            parseName data hdr2.name_offset hdr2.name_length = .ok nm)
          ∨ (¬ hdr2.name_offset > 0 ∧ nm = [])) :
    imagej_parse_overlay data = .ok (mkOverlay hdr hdr2 nm none) ∧
    (mkOverlay hdr hdr2 nm none).coordinates = none ∧
    (mkOverlay hdr hdr2 nm none).roi_type = hdr.roi_type ∧
    (mkOverlay hdr hdr2 nm none).name = nm := by
  have hsup : hdr.roi_type ∉ IMAGEJ_SUPPORTED_OVERLAYS :=
    fun hmem => hunk (supported_subset_known hdr.roi_type hmem)
  refine ⟨?_, rfl, rfl, rfl⟩
  rcases h4 with ⟨hpos, hna⟩ | ⟨hneg, hnil⟩
  · simp only [imagej_parse_overlay, h1, if_neg h2, h3, if_pos hpos, hna,
      if_neg hsup]
  · subst hnil
    simp only [imagej_parse_overlay, h1, if_neg h2, h3, if_neg hneg,
      if_neg hsup]

/-- Claim C6 witness: a concrete record with `roi_type` byte 77 decodes
successfully with absent coordinates, the opaque type value, and the
name. -/
theorem claim_c6_witness :
    ∃ ov, imagej_parse_overlay c6data = .ok ov ∧ ov.coordinates = none ∧
      ov.roi_type = 77 ∧ ov.name = [65] := by
  refine ⟨_, (claim_c6 c6data _ _ _ rfl (by decide) (by decide) rfl
    (Or.inl ⟨by decide, rfl⟩)).1, rfl, by decide, by decide⟩

/-- Claim C8: with an explicit index the synthesized name is exactly
`'F%02d-C%d' % (t+1, index)`; with no index and no name it is
`'F%02d-%x' % (t+1, random32)`, whose hex suffix is 1 to 8 lowercase hex
digits — the length of a 32-bit value. -/
theorem claim_c8 :
    (∀ (t i : Int) (rnd : Nat), synthesize_name t (some i) rnd
        = "F" ++ pyFormat02d (t + 1) ++ "-C" ++ toString i) ∧
    synthesize_name 2 (some 5) 0 = "F03-C5" ∧
    synthesize_name 2 none 3735928559 = "F03-deadbeef" ∧
    (∀ (t : Int) (rnd : Nat), rnd < 4294967295 →
      synthesize_name t none rnd
          = "F" ++ pyFormat02d (t + 1) ++ "-" ++ hexStr rnd ∧
        1 ≤ (hexStr rnd).length ∧ (hexStr rnd).length ≤ 8 ∧
        ∀ ch ∈ (hexStr rnd).data,
          (48 ≤ ch.toNat ∧ ch.toNat ≤ 57) ∨
            (97 ≤ ch.toNat ∧ ch.toNat ≤ 102)) := by
  refine ⟨fun t i rnd => rfl, by decide, by decide, ?_⟩
  intro t rnd hrnd
  exact ⟨rfl, hexStr_length_pos rnd, hexStr_length_le rnd (by omega),
    hexStr_digits rnd⟩

/-- Claim C8 witness: at `t = 0` with random value 255 the synthesized
name is `F01-ff`, a 2-digit hex suffix of lowercase hex digits. -/
theorem claim_c8_witness :
    (255 : Nat) < 4294967295 ∧
    (synthesize_name 0 none 255
        = "F" ++ pyFormat02d (0 + 1) ++ "-" ++ hexStr 255 ∧
      1 ≤ (hexStr 255).length ∧ (hexStr 255).length ≤ 8 ∧
      ∀ ch ∈ (hexStr 255).data,
        (48 ≤ ch.toNat ∧ ch.toNat ≤ 57) ∨
          (97 ≤ ch.toNat ∧ ch.toNat ≤ 102)) ∧
    synthesize_name 0 none 255 = "F01-ff" :=
  ⟨by decide, claim_c8.2.2.2 0 255 (by decide), by decide⟩

/-- Claim C1 counterexample: for `P = [(100000, 0)]` the translated
coordinates `(0,0)` lie within the signed 16-bit range, yet adding the
header's `(left, top)` back to the decoded coordinates does not recover
`P`: the minimum x 100000 wraps to -31072 in the header's 16-bit field. -/
theorem claim_c1_counterexample :
    ∃ d ov,
      imagej_create_roi [((100000 : Int), 0)] (some ("A")) 0 0 0 none 0
        = some d ∧
      imagej_parse_overlay d = .ok ov ∧
      ov.coordinates = some [(0, 0)] ∧
      ([((0 : Int), (0 : Int))].map fun q => (q.1 + ov.left, q.2 + ov.top))
        ≠ [((100000 : Int), 0)] := by
  refine ⟨_, _, rfl, rfl, by decide, by decide⟩

/-- Claim C1 (amended): for every nonempty integer point list `P` of at
most 8175 points (beyond which the decoder's int16 slice arithmetic
wraps and the real decoder fails) whose minima fit the signed 16-bit
header fields and whose translated coordinates fit the signed 16-bit
range, and every BMP name of fewer than `2^29` characters (so the int32
name-slice arithmetic does not wrap), decoding the encoded record
succeeds and yields the translated coordinates exactly, which after
adding back the header's `(left, top)` equal `P` with no lossy rounding;
the name also decodes exactly. -/
theorem claim_c1 (p0 : Int × Int) (ps : List (Int × Int)) (nm : String)
    (c z t : Int) (idx : Option Int) (rnd : Nat)
    (hn : (p0 :: ps).length ≤ 8175)
    (hleft : -32768 ≤ roi_left p0 ps ∧ roi_left p0 ps < 32768)
    (htop : -32768 ≤ roi_top p0 ps ∧ roi_top p0 ps < 32768)
    (hx : ∀ q ∈ p0 :: ps, q.1 - roi_left p0 ps ≤ 32767)
    (hy : ∀ q ∈ p0 :: ps, q.2 - roi_top p0 ps ≤ 32767)
    (hnm : ∀ ch ∈ nm.data, ch.toNat < 65536)
    (hnmlen : nm.data.length < 536870912) :
    ∃ d ov,
      imagej_create_roi (p0 :: ps) (some nm) c z t idx rnd = some d ∧
      imagej_parse_overlay d = .ok ov ∧
      ov.coordinates = some (roi_translated p0 ps) ∧
      ov.left = roi_left p0 ps ∧ ov.top = roi_top p0 ps ∧
      ((roi_translated p0 ps).map fun q => (q.1 + ov.left, q.2 + ov.top))
        = p0 :: ps ∧
      ov.name = nm.data.map Char.toNat := by
  obtain ⟨h1, h2⟩ := parse_overlay_of_create p0 ps nm c z t idx rnd
    hn hnm hnmlen hx hy
  refine ⟨_, _, h1, h2, rfl, ?_, ?_, ?_, rfl⟩
  · show (roi_header p0 ps t).left = roi_left p0 ps
    simp only [roi_header]
    exact wrap16_eq_self hleft.1 hleft.2
  · show (roi_header p0 ps t).top = roi_top p0 ps
    simp only [roi_header]
    exact wrap16_eq_self htop.1 htop.2
  · show ((roi_translated p0 ps).map fun q =>
        (q.1 + (roi_header p0 ps t).left, q.2 + (roi_header p0 ps t).top))
      = p0 :: ps
    have hlv : (roi_header p0 ps t).left = roi_left p0 ps := by
      simp only [roi_header]
      exact wrap16_eq_self hleft.1 hleft.2
    have htv : (roi_header p0 ps t).top = roi_top p0 ps := by
      simp only [roi_header]
      exact wrap16_eq_self htop.1 htop.2
    rw [hlv, htv, roi_translated, List.map_map]
    have hfun : ∀ q ∈ p0 :: ps,
        ((fun q : Int × Int => (q.1 + roi_left p0 ps, q.2 + roi_top p0 ps)) ∘
          (fun q : Int × Int =>
            (q.1 - roi_left p0 ps, q.2 - roi_top p0 ps))) q = id q := by
      intro q _
      simp
    rw [List.map_congr_left hfun, List.map_id]

/-- Claim C1 witness: the concrete scenario — encoding
`[(10,20),(15,20),(15,25),(10,25)]` with `t = 2` and name `"cellA"`
decodes to the name `"cellA"` (code units `[99,101,108,108,65]`) and the
local-frame coordinates `[(0,0),(5,0),(5,5),(0,5)]`, which recover the
original points after adding back `(10, 20)`. -/
theorem claim_c1_witness :
    (([((10 : Int), 20), (15, 20), (15, 25), (10, 25)] :
        List (Int × Int)).length ≤ 32767 ∧
      (∀ q ∈ [((10 : Int), 20), (15, 20), (15, 25), (10, 25)],
        q.1 - roi_left ((10 : Int), 20) [(15, 20), (15, 25), (10, 25)]
          ≤ 32767) ∧
      (∀ ch ∈ ("cellA").data, ch.toNat < 65536)) ∧
    (∃ d ov,
      imagej_create_roi [((10 : Int), 20), (15, 20), (15, 25), (10, 25)]
          (some ("cellA")) 0 0 2 none 0 = some d ∧
      imagej_parse_overlay d = .ok ov ∧
      ov.coordinates
        = some (roi_translated ((10 : Int), 20) [(15, 20), (15, 25), (10, 25)]) ∧
      ov.left = roi_left ((10 : Int), 20) [(15, 20), (15, 25), (10, 25)] ∧
      ov.top = roi_top ((10 : Int), 20) [(15, 20), (15, 25), (10, 25)] ∧
      ((roi_translated ((10 : Int), 20) [(15, 20), (15, 25), (10, 25)]).map
          fun q => (q.1 + ov.left, q.2 + ov.top))
        = [((10 : Int), 20), (15, 20), (15, 25), (10, 25)] ∧
      ov.name = ("cellA").data.map Char.toNat) ∧
    roi_translated ((10 : Int), 20) [(15, 20), (15, 25), (10, 25)]
      = [(0, 0), (5, 0), (5, 5), (0, 5)] ∧
    roi_left ((10 : Int), 20) [(15, 20), (15, 25), (10, 25)] = 10 ∧
    roi_top ((10 : Int), 20) [(15, 20), (15, 25), (10, 25)] = 20 ∧
    ("cellA").data.map Char.toNat = [99, 101, 108, 108, 65] :=
  ⟨⟨by decide, by decide, by decide⟩,
    claim_c1 ((10 : Int), 20) [(15, 20), (15, 25), (10, 25)] ("cellA")
      0 0 2 none 0 (by decide) (by decide) (by decide) (by decide)
      (by decide) (by decide) (by decide),
    by decide, by decide, by decide, by decide⟩

/-- Claim C5 witness: a fresh session with one pending record attaches
exactly two tags on the first save and none on the second. -/
theorem claim_c5_witness :
    ((⟨[[0]], false⟩ : TiffWriterState).ijm_first_written = false ∧
      (⟨[[0]], false⟩ : TiffWriterState).ijm_roi_data ≠ []) ∧
    ((TiffWriter_new_save ⟨[[0]], false⟩).2.length = 2 ∧
      (TiffWriter_new_save ⟨[[0]], false⟩).1.ijm_first_written = true ∧
      (TiffWriter_new_save ⟨[[0]], false⟩).1.ijm_roi_data
        = (⟨[[0]], false⟩ : TiffWriterState).ijm_roi_data ∧
      TiffWriter_new_save ((TiffWriter_new_save ⟨[[0]], false⟩).1)
        = ((TiffWriter_new_save ⟨[[0]], false⟩).1, []) ∧
      (∀ s2 : TiffWriterState, s2.ijm_first_written = true →
        TiffWriter_new_save s2 = (s2, []))) :=
  ⟨⟨rfl, by decide⟩, claim_c5 ⟨[[0]], false⟩ rfl (by decide)⟩
